import Mathlib

/-!
The relive_api type registry and TLV factory.

A shallow embedding of `Source/Tools/relive_api/TypesCollection.hpp`:
the type registry `TypesCollectionBase` (a vector of type descriptors) and the
variant factory `TlvFactory` (two ordered maps from tag and from name to a
constructor closure).

Conventions of the embedding:

* `std::type_index` is a natural number; the template argument `T` of
  `AddEnum<T>`, `AddBasicType<T>`, `TypeName<T>` is passed as its type index.
* enum values and `s32` bounds are integers (no arithmetic is done on them).
* a C++ method that may throw returns `Except Exception _`; a method that
  mutates the object also returns the object's new state.
* `nullptr` is `none`.
* `std::vector` is `List`, `push_back` appends at the end; `std::map` is a
  list of key/value pairs kept in strictly ascending key order.
-/

namespace ReliveAPI

/-- The exceptions of `relive_api_exceptions.hpp` that `TypesCollection.hpp`
throws, plus `Other` for whatever code outside this header throws. -/
inductive Exception where
  | DuplicateEnumNameException (enumName : String)
  | UnknownEnumValueException (value : Option String)
  | Other (what : String)
  deriving DecidableEq, Repr

/-- The native identity `std::type_index` of a C++ type. -/
abbrev type_index := Nat

/-- A pair of `AddEnum`: `struct EnumPair { T mEnumValue; std::string mName; }`. -/
structure EnumPair where
  mEnumValue : Int
  mName : String
  deriving DecidableEq, Repr

/-- Modelled from the spec: the headers `ITypeBase.hpp`, `EnumType.hpp` and
`BasicType.hpp` are not among the sources. A descriptor is an `EnumType<T>`
(name, native type, value to name mapping) or a `BasicType<T>` (name, native
type, inclusive bounds). -/
inductive ITypeBase where
  | EnumType (mName : String) (mTypeIndex : type_index) (mMapping : List (Int × String))
  | BasicType (mName : String) (mTypeIndex : type_index) (mMinVal mMaxVal : Int)
  deriving DecidableEq, Repr

namespace ITypeBase

/-- The accessor `ITypeBase::Name()`. -/
def Name : ITypeBase → String
  | EnumType n _ _ => n
  | BasicType n _ _ _ => n

/-- The accessor `ITypeBase::TypeIndex()`: `typeid(T)` of the descriptor. -/
def TypeIndex : ITypeBase → type_index
  | EnumType _ t _ => t
  | BasicType _ t _ _ => t

/-- The virtual `ITypeBase::IsBasicType()`. -/
def IsBasicType : ITypeBase → Bool
  | EnumType _ _ _ => false
  | BasicType _ _ _ _ => true

end ITypeBase

/-- A `jsonxx::Array`: the sequence of its entries. The entry type is a
parameter of the embedding. -/
abbrev jsonxx.Array (J : Type) := List J

/-- The members of the descriptor classes that `TypesCollection.hpp` calls and
whose bodies are in the missing headers. They are parameters of the embedding:
every theorem holds for all of them.

* `Add m v n` is `EnumType<T>::Add(v, n)` on an enum whose mapping is `m`;
* `ValueFromString e s` and `ValueToString e v` are the two lookups, called on
  `static_cast<EnumType<T>*>(e)` (the cast is unchecked in the source, so the
  functions take any descriptor);
* `ToJson e ret` is `e->ToJson(ret)`, returning the array after the call. -/
structure TypeOps (J : Type) where
  Add : List (Int × String) → Int → String → Except Exception (List (Int × String))
  ValueFromString : ITypeBase → String → Except Exception Int
  ValueToString : ITypeBase → Int → Except Exception String
  ToJson : ITypeBase → jsonxx.Array J → jsonxx.Array J

/-- The class `TypesCollectionBase`: its only data member is `mTypes`. -/
structure TypesCollectionBase where
  mTypes : List ITypeBase
  deriving DecidableEq, Repr

namespace TypesCollectionBase

/-- The registry right after construction. -/
def empty : TypesCollectionBase := ⟨[]⟩

/-- The loop of `TypeName`: the name of the first descriptor whose type index
is `typeIndex`, or the empty string. -/
def TypeNameLoop (typeIndex : type_index) : List ITypeBase → String
  | [] => ""
  | e :: rest => if e.TypeIndex = typeIndex then e.Name else TypeNameLoop typeIndex rest

/-- Both `TypeName(std::type_index)` and `TypeName<T>()`. -/
def TypeName (self : TypesCollectionBase) (typeIndex : type_index) : String :=
  TypeNameLoop typeIndex self.mTypes

/-- The loop of `AddEnum` over `enumItems`: `newEnum->Add(...)` for each pair,
stopping at the first one that throws. -/
def AddEnumItems {J : Type} (ops : TypeOps J) :
    List (Int × String) → List EnumPair → Except Exception (List (Int × String))
  | m, [] => .ok m
  | m, enumItem :: rest =>
    match ops.Add m enumItem.mEnumValue enumItem.mName with
    | .error ex => .error ex
    | .ok m1 => AddEnumItems ops m1 rest

/-- The method `AddEnum<T>(enumName, enumItems)`. The result is the thrown
exception or the returned pointer (the new descriptor), with the registry after
the call. -/
def AddEnum {J : Type} (ops : TypeOps J) (self : TypesCollectionBase) (T : type_index)
    (enumName : String) (enumItems : List EnumPair) :
    Except Exception (Option ITypeBase) × TypesCollectionBase :=
  if ¬ (self.TypeName T = "") then
    -- Type already exists
    (.error (.DuplicateEnumNameException enumName), self)
  else
    match AddEnumItems ops [] enumItems with
    | .error ex => (.error ex, self)
    | .ok m =>
      let newEnum := ITypeBase.EnumType enumName T m
      (.ok (some newEnum), ⟨self.mTypes ++ [newEnum]⟩)

/-- The loop of `EnumValueFromString`. -/
def EnumValueFromStringLoop {J : Type} (ops : TypeOps J) (enumTypeName enumValueString : String) :
    List ITypeBase → Except Exception Int
  | [] => .error (.UnknownEnumValueException (some enumValueString))
  | e :: rest =>
    if e.Name = enumTypeName then ops.ValueFromString e enumValueString
    else EnumValueFromStringLoop ops enumTypeName enumValueString rest

/-- The method `EnumValueFromString<T>(enumTypeName, enumValueString)`. -/
def EnumValueFromString {J : Type} (ops : TypeOps J) (self : TypesCollectionBase)
    (enumTypeName enumValueString : String) : Except Exception Int :=
  EnumValueFromStringLoop ops enumTypeName enumValueString self.mTypes

/-- The loop of `EnumValueToString`. -/
def EnumValueToStringLoop {J : Type} (ops : TypeOps J) (T : type_index) (enumValue : Int) :
    List ITypeBase → Except Exception String
  | [] => .error (.UnknownEnumValueException none)
  | e :: rest =>
    if e.TypeIndex = T then ops.ValueToString e enumValue
    else EnumValueToStringLoop ops T enumValue rest

/-- The method `EnumValueToString<T>(enumValue)`. -/
def EnumValueToString {J : Type} (ops : TypeOps J) (self : TypesCollectionBase)
    (T : type_index) (enumValue : Int) : Except Exception String :=
  EnumValueToStringLoop ops T enumValue self.mTypes

/-- The method `AddBasicType<T>(typeName, minVal, maxVal)`: the returned pointer
(`none` is `nullptr`) and the registry after the call. It never throws. -/
def AddBasicType (self : TypesCollectionBase) (T : type_index)
    (typeName : String) (minVal maxVal : Int) : Option ITypeBase × TypesCollectionBase :=
  if ¬ (self.TypeName T = "") then
    -- Type already exists
    (none, self)
  else
    let newType := ITypeBase.BasicType typeName T minVal maxVal
    (some newType, ⟨self.mTypes ++ [newType]⟩)

/-- The loop of `EnumsToJson`, `ret` being the array built so far. -/
def EnumsToJsonLoop {J : Type} (ops : TypeOps J) : jsonxx.Array J → List ITypeBase → jsonxx.Array J
  | ret, [] => ret
  | ret, basicType :: rest =>
    if !basicType.IsBasicType then EnumsToJsonLoop ops (ops.ToJson basicType ret) rest
    else EnumsToJsonLoop ops ret rest

/-- The const method `EnumsToJson()`. -/
def EnumsToJson {J : Type} (ops : TypeOps J) (self : TypesCollectionBase) : jsonxx.Array J :=
  EnumsToJsonLoop ops [] self.mTypes

/-- The loop of `BasicTypesToJson`, `ret` being the array built so far. -/
def BasicTypesToJsonLoop {J : Type} (ops : TypeOps J) :
    jsonxx.Array J → List ITypeBase → jsonxx.Array J
  | ret, [] => ret
  | ret, basicType :: rest =>
    if basicType.IsBasicType then BasicTypesToJsonLoop ops (ops.ToJson basicType ret) rest
    else BasicTypesToJsonLoop ops ret rest

/-- The const method `BasicTypesToJson()`. -/
def BasicTypesToJson {J : Type} (ops : TypeOps J) (self : TypesCollectionBase) : jsonxx.Array J :=
  BasicTypesToJsonLoop ops [] self.mTypes

/-- A call of one of the public methods of the registry, with its arguments. -/
inductive Call where
  | AddEnum (T : type_index) (enumName : String) (enumItems : List EnumPair)
  | AddBasicType (T : type_index) (typeName : String) (minVal maxVal : Int)
  | TypeName (typeIndex : type_index)
  | EnumValueFromString (enumTypeName enumValueString : String)
  | EnumValueToString (T : type_index) (enumValue : Int)
  | EnumsToJson
  | BasicTypesToJson
  deriving DecidableEq, Repr

/-- What a call gives back to its caller. -/
inductive Returned (J : Type) where
  | thrown (ex : Exception)
  | pointer (p : Option ITypeBase)
  | string (s : String)
  | value (v : Int)
  | array (a : jsonxx.Array J)

/-- One call on a registry: what it gives back and the registry after it. The
const methods and the two lookups leave the object as it is. -/
def call {J : Type} (ops : TypeOps J) (self : TypesCollectionBase) :
    Call → Returned J × TypesCollectionBase
  | .AddEnum T enumName enumItems =>
    match self.AddEnum ops T enumName enumItems with
    | (.error ex, self1) => (.thrown ex, self1)
    | (.ok p, self1) => (.pointer p, self1)
  | .AddBasicType T typeName minVal maxVal =>
    let r := self.AddBasicType T typeName minVal maxVal
    (.pointer r.1, r.2)
  | .TypeName typeIndex => (.string (self.TypeName typeIndex), self)
  | .EnumValueFromString enumTypeName enumValueString =>
    match self.EnumValueFromString ops enumTypeName enumValueString with
    | .error ex => (.thrown ex, self)
    | .ok v => (.value v, self)
  | .EnumValueToString T enumValue =>
    match self.EnumValueToString ops T enumValue with
    | .error ex => (.thrown ex, self)
    | .ok s => (.string s, self)
  | .EnumsToJson => (.array (self.EnumsToJson ops), self)
  | .BasicTypesToJson => (.array (self.BasicTypesToJson ops), self)

/-- The registry after a sequence of calls, made one after the other. -/
def run {J : Type} (ops : TypeOps J) (self : TypesCollectionBase) (calls : List Call) :
    TypesCollectionBase :=
  calls.foldl (fun s c => (call ops s c).2) self

/-- The name a call registers, if it is a registration. -/
def Call.registers : Call → Option (String × type_index)
  | .AddEnum T enumName _ => some (enumName, T)
  | .AddBasicType T typeName _ _ => some (typeName, T)
  | _ => none

end TypesCollectionBase

/-- Modelled from the spec: a sample of the missing descriptor members, used
to evaluate the registry on concrete inputs. `Add` rejects a repeated value or
a repeated name ("a duplicate value or duplicate name is rejected at
registration time"), the lookups search the mapping and fail with
`UnknownEnumValue`, and the document of a descriptor is the descriptor. -/
def sampleOps : TypeOps ITypeBase where
  Add := fun m v n =>
    if m.any (fun p => p.1 = v || p.2 = n) then .error (.Other "duplicate enum item")
    else .ok (m ++ [(v, n)])
  ValueFromString := fun e s =>
    match e with
    | .EnumType _ _ m =>
      match m.find? (fun p => p.2 = s) with
      | some p => .ok p.1
      | none => .error (.UnknownEnumValueException (some s))
    | .BasicType _ _ _ _ => .error (.Other "not an enum")
  ValueToString := fun e v =>
    match e with
    | .EnumType _ _ m =>
      match m.find? (fun p => p.1 = v) with
      | some p => .ok p.2
      | none => .error (.UnknownEnumValueException none)
    | .BasicType _ _ _ _ => .error (.Other "not an enum")
  ToJson := fun e ret => ret ++ [e]

end ReliveAPI

/-! The variant factory -/

namespace std

/-- A `std::map<K, V>`: its entries in iteration order, which is strictly
ascending key order. -/
abbrev map (K V : Type) := List (K × V)

namespace map

/-- The lookup `m.find(k)`: `none` is `std::end(m)`, otherwise `it->second`. -/
def find {K V : Type} [DecidableEq K] : map K V → K → Option V
  | [], _ => none
  | (k1, v1) :: rest, k => if k1 = k then some v1 else find rest k

/-- The assignment `m[k] = v`: overwrites the entry of `k` or inserts one at
its place in key order. -/
def assign {K V : Type} [LinearOrder K] [DecidableEq K] : map K V → K → V → map K V
  | [], k, v => [(k, v)]
  | (k1, v1) :: rest, k, v =>
    if k < k1 then (k, v) :: (k1, v1) :: rest
    else if k = k1 then (k, v) :: rest
    else (k1, v1) :: assign rest k v

/-- The keys of a map in iteration order. -/
def keys {K V : Type} (m : map K V) : List K := m.map Prod.fst

end map

end std

namespace ReliveAPI

/-- Modelled from the spec: `TlvObjectBase` is only forward-declared in the
sources. A variant wrapper carries the name and the tag of its kind, the state
its kind's constructor built (`mFields`), and its instance number. -/
structure TlvObjectBase (F : Type) where
  mName : String
  mTlvType : Int
  mFields : F
  mInstanceNumber : Int

/-- Modelled from the spec: `TlvObjectBase::SetInstanceNumber` sets the
instance index of the wrapper and nothing else. -/
def TlvObjectBase.SetInstanceNumber {F : Type} (self : TlvObjectBase F) (instanceNumber : Int) :
    TlvObjectBase F :=
  { self with mInstanceNumber := instanceNumber }

/-- Modelled from the spec: the serialized document of a wrapper (section 4.3
and 6): the variant name, the instance index and the fields. -/
structure Document (F : Type) where
  type : String
  instance_index : Int
  fields : F
  deriving DecidableEq, Repr

/-- Modelled from the spec: `ToDocument()` of section 4.3, "two metadata fields
are always present: variant name and instance index". -/
def TlvObjectBase.ToDocument {F : Type} (self : TlvObjectBase F) : Document F :=
  ⟨self.mName, self.mInstanceNumber, self.mFields⟩

/-- The alias `FnTlvFactory<TlvType>`: a constructor closure taking the registry
(by reference, so its new state is returned), the raw record or `nullptr`, and
the instance count. -/
abbrev FnTlvFactory (R F : Type) :=
  TypesCollectionBase → Option R → Int →
    Except Exception (Option (TlvObjectBase F)) × TypesCollectionBase

/-- A wrapper class, the template argument `TlvWrapperType` of `DoRegisterType`.
The wrapper classes are not among the sources, so what the factory uses of one
is a parameter:

* `Name` and `TlvType` are what `tmp.Name()` and `tmp.TlvType()` report;
* `AddTypes types` is `TlvWrapperType tmp; tmp.AddTypes(types)`: it may throw
  and it leaves the registry in the returned state;
* `ctor types pTlv` is the constructor `TlvWrapperType(types, pTlv)`: it may
  throw, and returns the state of the new object. -/
structure TlvWrapperType (R F : Type) where
  Name : String
  TlvType : Int
  AddTypes : TypesCollectionBase → Except Exception Unit × TypesCollectionBase
  ctor : TypesCollectionBase → Option R → Except Exception F × TypesCollectionBase

/-- The class `TlvFactory<TlvEnumType, PathTlvType>`: its two maps. -/
structure TlvFactory (R F : Type) where
  mTlvFactory : std.map Int (FnTlvFactory R F)
  mReverseTlvFactory : std.map String (FnTlvFactory R F)

/-- What a factory method leaves behind: its result (an exception, or the
returned value), the registry it was given by reference, and the factory. -/
structure Outcome (R F A : Type) where
  result : Except Exception A
  typesCollection : TypesCollectionBase
  self : TlvFactory R F

namespace TlvFactory

/-- A factory right after construction: both maps empty. -/
def empty {R F : Type} : TlvFactory R F := ⟨[], []⟩

/-- The lambda `fnCreate` of `DoRegisterType<TlvWrapperType>`. -/
def fnCreate {R F : Type} (W : TlvWrapperType R F) : FnTlvFactory R F :=
  fun types pTlv instanceCount =>
    match W.ctor types pTlv with
    | (.error ex, types1) => (.error ex, types1)
    | (.ok fields, types1) =>
      let ret : TlvObjectBase F := ⟨W.Name, W.TlvType, fields, 0⟩
      (.ok (some (ret.SetInstanceNumber instanceCount)), types1)

/-- The method `MakeTlvByEnum(typesCollection, tlvType, pTlv, instanceCount)`.
The warning it logs for an unknown type is not part of the state. -/
def MakeTlvByEnum {R F : Type} (self : TlvFactory R F) (typesCollection : TypesCollectionBase)
    (tlvType : Int) (pTlv : Option R) (instanceCount : Int) :
    Outcome R F (Option (TlvObjectBase F)) :=
  match std.map.find self.mTlvFactory tlvType with
  | none => ⟨.ok none, typesCollection, self⟩
  | some second =>
    let r := second typesCollection pTlv instanceCount
    ⟨r.1, r.2, self⟩

/-- The method `MakeTlvByName(typesCollection, tlvTypeName, pTlv)`. -/
def MakeTlvByName {R F : Type} (self : TlvFactory R F) (typesCollection : TypesCollectionBase)
    (tlvTypeName : String) (pTlv : Option R) : Outcome R F (Option (TlvObjectBase F)) :=
  match std.map.find self.mReverseTlvFactory tlvTypeName with
  | none => ⟨.ok none, typesCollection, self⟩
  | some second =>
    let r := second typesCollection pTlv 0
    ⟨r.1, r.2, self⟩

/-- The method `DoRegisterType<TlvWrapperType>(constructingTypes)`. -/
def DoRegisterType {R F : Type} (self : TlvFactory R F) (W : TlvWrapperType R F)
    (constructingTypes : TypesCollectionBase) : Outcome R F Unit :=
  match W.AddTypes constructingTypes with
  | (.error ex, types1) => ⟨.error ex, types1, self⟩
  | (.ok (), types1) =>
    let tlvType := W.TlvType
    let reverse1 := std.map.assign self.mReverseTlvFactory W.Name (fnCreate W)
    let factory1 := std.map.assign self.mTlvFactory tlvType (fnCreate W)
    ⟨.ok (), types1, ⟨factory1, reverse1⟩⟩

/-- The loop of `AddTlvsToJsonArray` over the entries of `mTlvFactory`:
`array << value(typesCollection, nullptr, 0)->StructureToJson()`. It stops at
the first constructor that throws; a constructor returning `nullptr` makes the
dereference fail, which is reported as `Other`. `StructureToJson` belongs to
the missing `TlvObjectBase` and is a parameter. -/
def AddTlvsToJsonArrayLoop {R F J : Type} (StructureToJson : TlvObjectBase F → J) :
    std.map Int (FnTlvFactory R F) → TypesCollectionBase → jsonxx.Array J →
      Except Exception Unit × TypesCollectionBase × jsonxx.Array J
  | [], typesCollection, array => (.ok (), typesCollection, array)
  | (_, value) :: rest, typesCollection, array =>
    match value typesCollection none 0 with
    | (.error ex, types1) => (.error ex, types1, array)
    | (.ok none, types1) => (.error (.Other "null dereference"), types1, array)
    | (.ok (some obj), types1) =>
      AddTlvsToJsonArrayLoop StructureToJson rest types1 (array ++ [StructureToJson obj])

/-- The method `AddTlvsToJsonArray(typesCollection, array)`: the result, the
registry and the array after the call. -/
def AddTlvsToJsonArray {R F J : Type} (StructureToJson : TlvObjectBase F → J)
    (self : TlvFactory R F) (typesCollection : TypesCollectionBase) (array : jsonxx.Array J) :
    Except Exception Unit × TypesCollectionBase × jsonxx.Array J :=
  AddTlvsToJsonArrayLoop StructureToJson self.mTlvFactory typesCollection array

end TlvFactory

end ReliveAPI

/-! Definitions used to state the properties -/

namespace ReliveAPI

namespace TypesCollectionBase

/-- The first descriptor of a list registered for a native type. -/
def firstOfType (typeIndex : type_index) (l : List ITypeBase) : Option ITypeBase :=
  l.find? (fun d => d.TypeIndex = typeIndex)

/-- The first descriptor of a list with a given name. -/
def firstNamed (name : String) (l : List ITypeBase) : Option ITypeBase :=
  l.find? (fun d => d.Name = name)

/-- The invariant behind name uniqueness: names are non-empty, every
descriptor carries the name and type of an allowed registration, and native
types are pairwise distinct. -/
def Inv (P : String → type_index → Prop) (self : TypesCollectionBase) : Prop :=
  (∀ d ∈ self.mTypes, d.Name ≠ "" ∧ P d.Name d.TypeIndex) ∧
    (self.mTypes.map ITypeBase.TypeIndex).Nodup

end TypesCollectionBase

namespace TlvFactory

/-- The factories built by `DoRegisterType` calls from the empty factory, with
the kinds whose registration succeeded, most recent first. A call that throws
leaves the list of kinds as it was. -/
inductive Built {R F : Type} : List (TlvWrapperType R F) → TlvFactory R F → Prop where
  | empty : Built [] TlvFactory.empty
  | registered {Ws : List (TlvWrapperType R F)} {f : TlvFactory R F}
      (W : TlvWrapperType R F) (types : TypesCollectionBase) :
      Built Ws f → (DoRegisterType f W types).result = .ok () →
        Built (W :: Ws) (DoRegisterType f W types).self
  | failed {Ws : List (TlvWrapperType R F)} {f : TlvFactory R F}
      (W : TlvWrapperType R F) (types : TypesCollectionBase) (ex : Exception) :
      Built Ws f → (DoRegisterType f W types).result = .error ex →
        Built Ws (DoRegisterType f W types).self

/-- The kind registered under a tag: the most recent one reporting it. -/
def kindOfTag {R F : Type} (T : Int) (Ws : List (TlvWrapperType R F)) :
    Option (TlvWrapperType R F) :=
  Ws.find? (fun W => W.TlvType = T)

/-- The kind registered under a name: the most recent one reporting it. -/
def kindOfName {R F : Type} (N : String) (Ws : List (TlvWrapperType R F)) :
    Option (TlvWrapperType R F) :=
  Ws.find? (fun W => W.Name = N)

/-- The serialized document of the wrapper a factory call returned, if it
returned one. -/
def returnedDocument {R F : Type} (o : Outcome R F (Option (TlvObjectBase F))) :
    Option (Document F) :=
  match o.result with
  | .ok (some obj) => some obj.ToDocument
  | _ => none

/-- A sample wrapper class for concrete runs: it registers no field type and
its constructor stores `fields`, whatever the record. -/
def sampleKind (name : String) (tag : Int) (fields : Nat) : TlvWrapperType Unit Nat where
  Name := name
  TlvType := tag
  AddTypes := fun types => (.ok (), types)
  ctor := fun types _ => (.ok fields, types)

end TlvFactory

end ReliveAPI

/-! The raw TLV records and the blast rectangle of AliveLibAO -/

namespace ReliveAPI

namespace TlvFactory

/-- A sample wrapper class that registers one enum for the native type `T` in
`AddTypes`, passing on what `AddEnum` throws. -/
def enumKind (name : String) (tag : Int) (T : type_index) (enumName : String) :
    TlvWrapperType Unit Nat where
  Name := name
  TlvType := tag
  AddTypes := fun types =>
    match TypesCollectionBase.AddEnum sampleOps types T enumName [] with
    | (.error ex, types1) => (.error ex, types1)
    | (.ok _, types1) => (.ok (), types1)
  ctor := fun types _ => (.ok 0, types)

end TlvFactory

end ReliveAPI

namespace AO

/-- A data member of a struct declaration: its type and its name, as written. -/
structure Member where
  type : String
  name : String
  deriving DecidableEq, Repr

/-- The members `struct Path_Slig : public Path_TLV` declares, in order. -/
def Path_Slig : List Member := [
    ⟨"__int16", "field_18_scale"⟩,
    ⟨"__int16", "field_1A_start_state"⟩,
    ⟨"__int16", "field_1C_pause_time"⟩,
    ⟨"__int16", "field_1E_pause_left_min"⟩,
    ⟨"__int16", "field_20_pause_left_max"⟩,
    ⟨"__int16", "field_22_pause_right_min"⟩,
    ⟨"__int16", "field_24_pause_right_max"⟩,
    ⟨"__int16", "field_26_chal_type"⟩,
    ⟨"__int16", "field_28_chal_time"⟩,
    ⟨"__int16", "field_2A_number_of_times_to_shoot"⟩,
    ⟨"__int16", "field_2C_unknown"⟩,
    ⟨"__int16", "field_2E_code1"⟩,
    ⟨"__int16", "field_30_code2"⟩,
    ⟨"__int16", "field_32_chase_abe"⟩,
    ⟨"__int16", "field_34_start_direction"⟩,
    ⟨"__int16", "field_36_panic_timeout"⟩,
    ⟨"__int16", "field_38_num_panic_sounds"⟩,
    ⟨"__int16", "field_3A_panic_sound_timeout"⟩,
    ⟨"__int16", "field_3C_stop_chase_delay"⟩,
    ⟨"__int16", "field_3E_time_to_wait_before_chase"⟩,
    ⟨"__int16", "field_40_slig_id"⟩,
    ⟨"__int16", "field_42_listen_time"⟩,
    ⟨"__int16", "field_44_percent_say_what"⟩,
    ⟨"__int16", "field_46_percent_beat_mud"⟩,
    ⟨"__int16", "field_48_talk_to_abe"⟩,
    ⟨"__int16", "field_4A_dont_shoot"⟩,
    ⟨"__int16", "field_4C_z_shoot_delay"⟩,
    ⟨"__int16", "field_4E_stay_awake"⟩,
    ⟨"__int16", "field_50_disable_resources"⟩,
    ⟨"__int16", "field_52_noise_wake_up_distance"⟩,
    ⟨"__int16", "field_54_id"⟩,
    ⟨"__int16", "field_56_pad"⟩]

/-- The members `struct Path_Scrab : public Path_TLV` declares, in order. -/
def Path_Scrab : List Member := [
    ⟨"__int16", "field_18_scale"⟩,
    ⟨"__int16", "field_1A_attack_delay"⟩,
    ⟨"__int16", "field_1C_patrol_type"⟩,
    ⟨"__int16", "field_1E_left_min_delay"⟩,
    ⟨"__int16", "field_20_left_max_delay"⟩,
    ⟨"__int16", "field_22_right_min_delay"⟩,
    ⟨"__int16", "field_24_right_max_delay"⟩,
    ⟨"__int16", "field_26_attack_duration"⟩,
    ⟨"__int16", "field_28_disable_resources"⟩,
    ⟨"__int16", "field_2A_roar_randomly"⟩]

/-- The size `ALIVE_ASSERT_SIZEOF(Path_Slig, 0x58)` asserts. -/
def Path_Slig_asserted_size : Nat := 0x58

/-- The size `ALIVE_ASSERT_SIZEOF(Path_Scrab, 0x2C)` asserts. -/
def Path_Scrab_asserted_size : Nat := 0x2C

/-- The size in bytes of a member type; `__int16` is the only one used. -/
def sizeOfType (type : String) : Nat :=
  if type = "__int16" then 2 else 0

/-- The layout of members placed one after the other from the offset `base`
on, without padding: each name with its byte offset. -/
def layout : Nat → List Member → List (String × Nat)
  | _, [] => []
  | base, m :: rest => (m.name, base) :: layout (base + sizeOfType m.type) rest

/-- The size of a struct whose base class takes `base` bytes and whose members
follow without padding. -/
def sizeOfStruct : Nat → List Member → Nat
  | base, [] => base
  | base, m :: rest => sizeOfStruct (base + sizeOfType m.type) rest

/-- The value of a hexadecimal digit. -/
def hexDigit (c : Char) : Option Nat :=
  if '0' ≤ c ∧ c ≤ '9' then some (c.toNat - '0'.toNat)
  else if 'A' ≤ c ∧ c ≤ 'F' then some (c.toNat - 'A'.toNat + 10)
  else none

/-- The number a run of leading hexadecimal digits writes, `acc` being the value
of the digits read so far; the run ends at the first other character. -/
def hexRun : Nat → List Char → Nat
  | acc, [] => acc
  | acc, c :: rest =>
    match hexDigit c with
    | some d => hexRun (acc * 16 + d) rest
    | none => acc

/-- The offset a member name of the form `field_XX_...` announces. -/
def namedOffset (name : String) : Option Nat :=
  match name.data with
  | 'f' :: 'i' :: 'e' :: 'l' :: 'd' :: '_' :: rest => some (hexRun 0 rest)
  | _ => none

/-- A `PSX_RECT`: four `short` members. -/
structure PSX_RECT where
  x : Int
  y : Int
  w : Int
  h : Int
  deriving DecidableEq, Repr

/-- The conversion of an `int` to `short` that a compound assignment to a
`short` member ends with: the value modulo 2^16, in the signed range. -/
def toShort (v : Int) : Int := (v + 32768) % 65536 - 32768

/-- The values a `short` holds. -/
def InShort (v : Int) : Prop := -32768 ≤ v ∧ v ≤ 32767

instance (v : Int) : Decidable (InShort v) := by unfold InShort; infer_instance

/-- The rectangle computation of `Explosion::DealBlastDamage_459160(pRect)`:
`none` when `gBaseAliveGameObjects_4FC8A0` is null and the function returns at
once, otherwise the `expandedRect` that the objects and the TLV lookup are
tested against. `xpos` and `ypos` are `FP_GetExponent(field_A8_xpos)` and
`FP_GetExponent(field_AC_ypos)`; `%` of C++ truncates, as `Int.tmod`. -/
def DealBlastDamage_459160 (gBaseAliveGameObjects : Bool) (xpos ypos : Int)
    (pRect : PSX_RECT) : Option PSX_RECT :=
  if !gBaseAliveGameObjects then none
  else
    let x0 := min pRect.x pRect.w
    let w0 := max pRect.x pRect.w
    let y0 := min pRect.y pRect.h
    let h0 := max pRect.y pRect.h
    let x1 := toShort (x0 + xpos)
    let y1 := toShort (y0 + ypos)
    let w1 := toShort (w0 + xpos)
    let h1 := toShort (h0 + ypos)
    let x2 := if Int.tmod x1 1024 < 256 then toShort (x1 - 656) else x1
    let w2 := if Int.tmod w1 1024 > 624 then toShort (w1 + 656) else w1
    let y2 := if Int.tmod y1 480 < 120 then toShort (y1 - 240) else y1
    let h2 := if Int.tmod h1 480 > 360 then toShort (h1 + 240) else h1
    some ⟨x2, y2, w2, h2⟩

/-- No 16-bit overflow in the rectangle computation: every value stored into a
`short` member is the value computed. -/
def NoOverflow (xpos ypos : Int) (pRect : PSX_RECT) : Prop :=
  InShort (min pRect.x pRect.w + xpos) ∧ InShort (max pRect.x pRect.w + xpos) ∧
    InShort (min pRect.y pRect.h + ypos) ∧ InShort (max pRect.y pRect.h + ypos) ∧
    (Int.tmod (min pRect.x pRect.w + xpos) 1024 < 256 →
      InShort (min pRect.x pRect.w + xpos - 656)) ∧
    (Int.tmod (max pRect.x pRect.w + xpos) 1024 > 624 →
      InShort (max pRect.x pRect.w + xpos + 656)) ∧
    (Int.tmod (min pRect.y pRect.h + ypos) 480 < 120 →
      InShort (min pRect.y pRect.h + ypos - 240)) ∧
    (Int.tmod (max pRect.y pRect.h + ypos) 480 > 360 →
      InShort (max pRect.y pRect.h + ypos + 240))

instance (xpos ypos : Int) (pRect : PSX_RECT) : Decidable (NoOverflow xpos ypos pRect) := by
  unfold NoOverflow; infer_instance

end AO

/-! The type registry: lookups and registration -/

namespace ReliveAPI

namespace TypesCollectionBase

theorem TypeNameLoop_eq (typeIndex : type_index) (l : List ITypeBase) :
    TypeNameLoop typeIndex l =
      match firstOfType typeIndex l with
      | some e => e.Name
      | none => "" := by
  induction l with
  | nil => rfl
  | cons e rest ih =>
    by_cases h : e.TypeIndex = typeIndex
    · simp [TypeNameLoop, firstOfType, List.find?, h]
    · simp only [TypeNameLoop, firstOfType, List.find?, h, if_false, decide_False]
      simpa [firstOfType] using ih

theorem firstOfType_eq_none (typeIndex : type_index) (l : List ITypeBase) :
    firstOfType typeIndex l = none ↔ ∀ d ∈ l, d.TypeIndex ≠ typeIndex := by
  simp [firstOfType, List.find?_eq_none]

theorem firstNamed_eq_none (name : String) (l : List ITypeBase) :
    firstNamed name l = none ↔ ∀ d ∈ l, d.Name ≠ name := by
  simp [firstNamed, List.find?_eq_none]

theorem TypeName_of_first {self : TypesCollectionBase} {T : type_index} {e : ITypeBase}
    (h : firstOfType T self.mTypes = some e) : self.TypeName T = e.Name := by
  simp [TypeName, TypeNameLoop_eq, h]

theorem TypeName_of_none {self : TypesCollectionBase} {T : type_index}
    (h : firstOfType T self.mTypes = none) : self.TypeName T = "" := by
  simp [TypeName, TypeNameLoop_eq, h]

end TypesCollectionBase

end ReliveAPI

namespace ReliveAPI

namespace TypesCollectionBase

/-- C1 as stated fails: with an enum named "A" registered for native type 0,
`AddEnum<1>("A", {})` finds a descriptor of the same name and still succeeds,
registering a second descriptor named "A". -/
theorem C1_same_name_other_type_succeeds :
    (∃ d ∈ (TypesCollectionBase.mk [ITypeBase.EnumType "A" 0 []]).mTypes, d.Name = "A") ∧
    AddEnum sampleOps ⟨[ITypeBase.EnumType "A" 0 []]⟩ 1 "A" [] =
      (.ok (some (ITypeBase.EnumType "A" 1 [])),
        ⟨[ITypeBase.EnumType "A" 0 [], ITypeBase.EnumType "A" 1 []]⟩) := by
  constructor
  · exact ⟨_, List.mem_singleton.mpr rfl, rfl⟩
  · rfl

/-- C1, amended: whenever the first descriptor registered for the native type
`T` has a non-empty name, `AddEnum<T>(enumName, enumItems)` throws
`DuplicateEnumNameException(enumName)` and leaves the registry as it was,
whatever the name and the pairs. -/
theorem C1_AddEnum_duplicate_type {J : Type} (ops : TypeOps J) (self : TypesCollectionBase)
    (T : type_index) (enumName : String) (enumItems : List EnumPair) (e : ITypeBase)
    (hfirst : firstOfType T self.mTypes = some e) (hname : e.Name ≠ "") :
    AddEnum ops self T enumName enumItems =
      (.error (.DuplicateEnumNameException enumName), self) := by
  have h : ¬ (self.TypeName T = "") := by rw [TypeName_of_first hfirst]; exact hname
  simp [AddEnum, h]

theorem C1_AddEnum_duplicate_type_witness :
    AddEnum sampleOps ⟨[ITypeBase.EnumType "A" 0 []]⟩ 0 "B" [⟨1, "x"⟩] =
      (.error (.DuplicateEnumNameException "B"), ⟨[ITypeBase.EnumType "A" 0 []]⟩) :=
  C1_AddEnum_duplicate_type sampleOps ⟨[ITypeBase.EnumType "A" 0 []]⟩ 0 "B" [⟨1, "x"⟩]
    (ITypeBase.EnumType "A" 0 []) (by decide) (by decide)

end TypesCollectionBase

end ReliveAPI

namespace ReliveAPI

namespace TypesCollectionBase

/-- When every registered name is non-empty, an empty `TypeName` means that no
descriptor has the type index. -/
theorem not_mem_of_TypeName_empty {self : TypesCollectionBase} {T : type_index}
    (hne : ∀ d ∈ self.mTypes, d.Name ≠ "") (h : self.TypeName T = "") :
    ∀ d ∈ self.mTypes, d.TypeIndex ≠ T := by
  rw [← firstOfType_eq_none]
  cases hf : firstOfType T self.mTypes with
  | none => rfl
  | some e =>
    exfalso
    have hmem : e ∈ self.mTypes := List.mem_of_find?_eq_some hf
    rw [TypeName_of_first hf] at h
    exact hne e hmem h

theorem Inv_push {P : String → type_index → Prop} {self : TypesCollectionBase}
    (hinv : Inv P self) (d : ITypeBase) (hd : d.Name ≠ "") (hP : P d.Name d.TypeIndex)
    (hT : self.TypeName d.TypeIndex = "") : Inv P ⟨self.mTypes ++ [d]⟩ := by
  obtain ⟨h1, h2⟩ := hinv
  refine ⟨?_, ?_⟩
  · intro x hx
    rcases List.mem_append.mp hx with hx | hx
    · exact h1 x hx
    · rw [List.mem_singleton.mp hx]; exact ⟨hd, hP⟩
  · have hfresh := not_mem_of_TypeName_empty (fun x hx => (h1 x hx).1) hT
    rw [List.map_append, List.nodup_append]
    refine ⟨h2, List.nodup_singleton _, ?_⟩
    intro a ha hb
    rw [List.map_singleton, List.mem_singleton] at hb
    obtain ⟨x, hx, rfl⟩ := List.mem_map.mp ha
    exact hfresh x hx hb

theorem Inv_call {J : Type} (ops : TypeOps J) {P : String → type_index → Prop}
    {self : TypesCollectionBase} (hinv : Inv P self) (c : Call)
    (hc : ∀ n T, c.registers = some (n, T) → n ≠ "" ∧ P n T) :
    Inv P (call ops self c).2 := by
  cases c with
  | AddEnum T enumName enumItems =>
    have hreg := hc enumName T rfl
    simp only [call, AddEnum]
    by_cases hT : self.TypeName T = ""
    · simp only [hT, not_true_eq_false, if_false]
      cases hitems : AddEnumItems ops [] enumItems with
      | error ex => simpa using hinv
      | ok m => exact Inv_push hinv (ITypeBase.EnumType enumName T m) hreg.1 hreg.2 hT
    · simpa [hT] using hinv
  | AddBasicType T typeName minVal maxVal =>
    have hreg := hc typeName T rfl
    simp only [call, AddBasicType]
    by_cases hT : self.TypeName T = ""
    · simp only [hT, not_true_eq_false, if_false]
      exact Inv_push hinv (ITypeBase.BasicType typeName T minVal maxVal) hreg.1 hreg.2 hT
    · simpa [hT] using hinv
  | TypeName typeIndex => exact hinv
  | EnumValueFromString a b =>
    simp only [call]
    cases self.EnumValueFromString ops a b <;> exact hinv
  | EnumValueToString a b =>
    simp only [call]
    cases self.EnumValueToString ops a b <;> exact hinv
  | EnumsToJson => exact hinv
  | BasicTypesToJson => exact hinv

theorem Inv_run {J : Type} (ops : TypeOps J) {P : String → type_index → Prop}
    (calls : List Call) (self : TypesCollectionBase) (hinv : Inv P self)
    (hc : ∀ c ∈ calls, ∀ n T, c.registers = some (n, T) → n ≠ "" ∧ P n T) :
    Inv P (run ops self calls) := by
  induction calls generalizing self with
  | nil => exact hinv
  | cons c rest ih =>
    simp only [run, List.foldl_cons]
    exact ih _ (Inv_call ops hinv c (hc c (List.mem_cons_self _ _)))
      (fun c1 h1 => hc c1 (List.mem_cons_of_mem _ h1))

/-- C2 as stated fails: two `AddEnum` calls with the same name and different
native types both succeed, and the registry then holds two descriptors named
"A". -/
theorem C2_duplicate_names_reachable :
    run sampleOps empty [.AddEnum 0 "A" [], .AddEnum 1 "A" []] =
        ⟨[ITypeBase.EnumType "A" 0 [], ITypeBase.EnumType "A" 1 []]⟩ ∧
      ¬ ((run sampleOps empty [.AddEnum 0 "A" [], .AddEnum 1 "A" []]).mTypes.map
          ITypeBase.Name).Nodup := by
  have h : run sampleOps empty [.AddEnum 0 "A" [], .AddEnum 1 "A" []] =
      ⟨[ITypeBase.EnumType "A" 0 [], ITypeBase.EnumType "A" 1 []]⟩ := rfl
  refine ⟨h, ?_⟩
  rw [h]
  decide

/-- C2, amended: in every registry state reached from the empty registry by a
sequence of calls in which every registered name is non-empty and a name is
always registered for the same native type, no two descriptors have the same
name. -/
theorem C2_names_unique {J : Type} (ops : TypeOps J) (calls : List Call)
    (hne : ∀ c ∈ calls, ∀ n T, c.registers = some (n, T) → n ≠ "")
    (hfun : ∀ c1 ∈ calls, ∀ c2 ∈ calls, ∀ n T1 T2,
      c1.registers = some (n, T1) → c2.registers = some (n, T2) → T1 = T2) :
    ((run ops empty calls).mTypes.map ITypeBase.Name).Nodup := by
  have hinv : Inv (fun n T => ∃ c ∈ calls, c.registers = some (n, T))
      (run ops empty calls) := by
    apply Inv_run ops calls empty
    · exact ⟨fun d hd => absurd hd (List.not_mem_nil d), List.nodup_nil⟩
    · intro c hc n T hreg
      exact ⟨hne c hc n T hreg, c, hc, hreg⟩
  obtain ⟨h1, h2⟩ := hinv
  have hinj := List.inj_on_of_nodup_map h2
  refine List.Nodup.map_on ?_ (List.Nodup.of_map _ h2)
  intro x hx y hy hxy
  obtain ⟨_, c1, hc1, hr1⟩ := h1 x hx
  obtain ⟨_, c2, hc2, hr2⟩ := h1 y hy
  rw [hxy] at hr1
  exact hinj hx hy (hfun c1 hc1 c2 hc2 _ _ _ hr1 hr2)

theorem C2_names_unique_witness :
    ((run sampleOps empty
      [.AddEnum 0 "A" [⟨1, "x"⟩], .AddBasicType 1 "B" 0 9, .AddEnum 0 "A" []]).mTypes.map
        ITypeBase.Name).Nodup :=
  C2_names_unique sampleOps
    [.AddEnum 0 "A" [⟨1, "x"⟩], .AddBasicType 1 "B" 0 9, .AddEnum 0 "A" []]
    (by
      intro c hc n T h
      simp only [List.mem_cons, List.mem_singleton, List.not_mem_nil, or_false] at hc
      rcases hc with rfl | rfl | rfl <;> simp only [Call.registers, Option.some.injEq,
        Prod.mk.injEq] at h <;> rw [← h.1] <;> decide)
    (by
      intro c1 h1 c2 h2 n T1 T2 r1 r2
      simp only [List.mem_cons, List.mem_singleton, List.not_mem_nil, or_false] at h1 h2
      rcases h1 with rfl | rfl | rfl <;> rcases h2 with rfl | rfl | rfl <;>
        simp only [Call.registers, Option.some.injEq, Prod.mk.injEq] at r1 r2 <;>
        first
          | (exfalso; have h := r1.1.trans r2.1.symm; revert h; decide)
          | (rw [← r1.2, ← r2.2]))

end TypesCollectionBase

end ReliveAPI

namespace ReliveAPI

namespace TypesCollectionBase

/-- C3 as stated fails: a descriptor for native type 7 is registered, under the
empty name, and `AddBasicType<7>("u16", 0, 65535)` is not a no-op: it returns a
new descriptor and appends it. -/
theorem C3_empty_name_not_noop :
    (∃ d ∈ (TypesCollectionBase.mk [ITypeBase.BasicType "" 7 0 1]).mTypes, d.TypeIndex = 7) ∧
    AddBasicType ⟨[ITypeBase.BasicType "" 7 0 1]⟩ 7 "u16" 0 65535 =
      (some (ITypeBase.BasicType "u16" 7 0 65535),
        ⟨[ITypeBase.BasicType "" 7 0 1, ITypeBase.BasicType "u16" 7 0 65535]⟩) := by
  constructor
  · exact ⟨_, List.mem_singleton.mpr rfl, rfl⟩
  · rfl

/-- C3, amended: in every registry whose first descriptor for the native type
`T` has a non-empty name, `AddBasicType<T>(typeName, minVal, maxVal)` is a
no-op for every name and bounds: it returns `nullptr`, leaves the registry as
it was, calling it again does the same, and `TypeName<T>()` afterwards is still
the name of that first descriptor. -/
theorem C3_AddBasicType_noop (self : TypesCollectionBase) (T : type_index)
    (typeName : String) (minVal maxVal : Int) (e : ITypeBase)
    (hfirst : firstOfType T self.mTypes = some e) (hname : e.Name ≠ "") :
    AddBasicType self T typeName minVal maxVal = (none, self) ∧
      AddBasicType (AddBasicType self T typeName minVal maxVal).2 T typeName minVal maxVal =
        (none, self) ∧
      (AddBasicType self T typeName minVal maxVal).2.TypeName T = e.Name := by
  have h : ¬ (self.TypeName T = "") := by rw [TypeName_of_first hfirst]; exact hname
  have h1 : AddBasicType self T typeName minVal maxVal = (none, self) := by
    simp [AddBasicType, h]
  refine ⟨h1, ?_, ?_⟩
  · rw [h1]; exact h1
  · rw [h1]; exact TypeName_of_first hfirst

/-- A run of C3 on a registry holding `u16` for native type 7. -/
theorem C3_AddBasicType_noop_witness :
    firstOfType 7 [ITypeBase.BasicType "u16" 7 0 65535] =
        some (ITypeBase.BasicType "u16" 7 0 65535) ∧
      (AddBasicType ⟨[ITypeBase.BasicType "u16" 7 0 65535]⟩ 7 "other" 1 2 =
          (none, ⟨[ITypeBase.BasicType "u16" 7 0 65535]⟩) ∧
        AddBasicType (AddBasicType ⟨[ITypeBase.BasicType "u16" 7 0 65535]⟩ 7 "other" 1 2).2
            7 "other" 1 2 = (none, ⟨[ITypeBase.BasicType "u16" 7 0 65535]⟩) ∧
        (AddBasicType ⟨[ITypeBase.BasicType "u16" 7 0 65535]⟩ 7 "other" 1 2).2.TypeName 7 =
          (ITypeBase.BasicType "u16" 7 0 65535).Name) :=
  ⟨rfl, C3_AddBasicType_noop ⟨[ITypeBase.BasicType "u16" 7 0 65535]⟩ 7 "other" 1 2
    (ITypeBase.BasicType "u16" 7 0 65535) rfl (by decide)⟩

/-- C4 as stated fails: a descriptor is registered for native type 7, under the
empty name, and `TypeName(7)` is the empty string all the same. -/
theorem C4_empty_result_though_registered :
    (∃ d ∈ (TypesCollectionBase.mk [ITypeBase.BasicType "" 7 0 1]).mTypes, d.TypeIndex = 7) ∧
      TypeName ⟨[ITypeBase.BasicType "" 7 0 1]⟩ 7 = "" := by
  constructor
  · exact ⟨_, List.mem_singleton.mpr rfl, rfl⟩
  · rfl

/-- C4, amended: `TypeName` is total; it returns the name of the first
descriptor registered for the native type, and it returns the empty string
exactly when no descriptor is registered for that native type or the first one
registered for it has the empty name. -/
theorem C4_TypeName_first_match (self : TypesCollectionBase) (typeIndex : type_index) :
    (∀ e, firstOfType typeIndex self.mTypes = some e → self.TypeName typeIndex = e.Name) ∧
      (self.TypeName typeIndex = "" ↔
        (∀ d ∈ self.mTypes, d.TypeIndex ≠ typeIndex) ∨
          ∃ e, firstOfType typeIndex self.mTypes = some e ∧ e.Name = "") := by
  refine ⟨fun e he => TypeName_of_first he, ?_⟩
  cases hf : firstOfType typeIndex self.mTypes with
  | none =>
    have hnone := (firstOfType_eq_none typeIndex self.mTypes).mp hf
    simp only [TypeName_of_none hf, true_iff]
    exact Or.inl hnone
  | some e =>
    rw [TypeName_of_first hf]
    constructor
    · intro h; exact Or.inr ⟨e, rfl, h⟩
    · rintro (h | ⟨e1, he1, h⟩)
      · exact absurd ((firstOfType_eq_none typeIndex self.mTypes).mpr h) (by simp [hf])
      · cases he1; exact h

/-- A run of C4: the first of two descriptors of native type 3 gives the name. -/
theorem C4_TypeName_first_match_witness :
    TypeName ⟨[ITypeBase.BasicType "a" 3 0 1, ITypeBase.EnumType "b" 3 []]⟩ 3 =
      (ITypeBase.BasicType "a" 3 0 1).Name :=
  (C4_TypeName_first_match ⟨[ITypeBase.BasicType "a" 3 0 1, ITypeBase.EnumType "b" 3 []]⟩ 3).1
    (ITypeBase.BasicType "a" 3 0 1) rfl

theorem EnumValueFromStringLoop_eq {J : Type} (ops : TypeOps J) (n s : String)
    (l : List ITypeBase) :
    EnumValueFromStringLoop ops n s l =
      match firstNamed n l with
      | some e => ops.ValueFromString e s
      | none => .error (.UnknownEnumValueException (some s)) := by
  induction l with
  | nil => rfl
  | cons e rest ih =>
    by_cases h : e.Name = n
    · simp [EnumValueFromStringLoop, firstNamed, List.find?, h]
    · simp only [EnumValueFromStringLoop, firstNamed, List.find?, h, if_false, decide_False]
      simpa [firstNamed] using ih

theorem EnumValueToStringLoop_eq {J : Type} (ops : TypeOps J) (T : type_index) (v : Int)
    (l : List ITypeBase) :
    EnumValueToStringLoop ops T v l =
      match firstOfType T l with
      | some e => ops.ValueToString e v
      | none => .error (.UnknownEnumValueException none) := by
  induction l with
  | nil => rfl
  | cons e rest ih =>
    by_cases h : e.TypeIndex = T
    · simp [EnumValueToStringLoop, firstOfType, List.find?, h]
    · simp only [EnumValueToStringLoop, firstOfType, List.find?, h, if_false, decide_False]
      simpa [firstOfType] using ih

/-- C5: with no descriptor named `enumTypeName`, `EnumValueFromString` throws
`UnknownEnumValueException` for every string; with no descriptor of native type
`T`, `EnumValueToString<T>` throws `UnknownEnumValueException` for every value;
and when a descriptor matches, the lookup is the one of the first matching
descriptor in registration order. -/
theorem C5_enum_lookups {J : Type} (ops : TypeOps J) (self : TypesCollectionBase) :
    (∀ enumTypeName enumValueString, (∀ d ∈ self.mTypes, d.Name ≠ enumTypeName) →
        self.EnumValueFromString ops enumTypeName enumValueString =
          .error (.UnknownEnumValueException (some enumValueString))) ∧
      (∀ T enumValue, (∀ d ∈ self.mTypes, d.TypeIndex ≠ T) →
        self.EnumValueToString ops T enumValue = .error (.UnknownEnumValueException none)) ∧
      (∀ enumTypeName enumValueString e, firstNamed enumTypeName self.mTypes = some e →
        self.EnumValueFromString ops enumTypeName enumValueString =
          ops.ValueFromString e enumValueString) ∧
      (∀ T enumValue e, firstOfType T self.mTypes = some e →
        self.EnumValueToString ops T enumValue = ops.ValueToString e enumValue) := by
  refine ⟨?_, ?_, ?_, ?_⟩
  · intro n s h
    simp [EnumValueFromString, EnumValueFromStringLoop_eq,
      (firstNamed_eq_none n self.mTypes).mpr h]
  · intro T v h
    simp [EnumValueToString, EnumValueToStringLoop_eq,
      (firstOfType_eq_none T self.mTypes).mpr h]
  · intro n s e h
    simp [EnumValueFromString, EnumValueFromStringLoop_eq, h]
  · intro T v e h
    simp [EnumValueToString, EnumValueToStringLoop_eq, h]

/-- A run of C5 on a registry holding one enum: an unknown enum name and an
unknown native type both throw, a known one is looked up in the enum. -/
theorem C5_enum_lookups_witness :
    EnumValueFromString sampleOps ⟨[ITypeBase.EnumType "Scale" 4 [(0, "Full"), (1, "Half")]]⟩
        "Colour" "Half" = .error (.UnknownEnumValueException (some "Half")) ∧
      EnumValueToString sampleOps ⟨[ITypeBase.EnumType "Scale" 4 [(0, "Full"), (1, "Half")]]⟩
        5 1 = .error (.UnknownEnumValueException none) ∧
      EnumValueFromString sampleOps ⟨[ITypeBase.EnumType "Scale" 4 [(0, "Full"), (1, "Half")]]⟩
        "Scale" "Half" = .ok 1 :=
  ⟨(C5_enum_lookups sampleOps ⟨[ITypeBase.EnumType "Scale" 4 [(0, "Full"), (1, "Half")]]⟩).1
      "Colour" "Half" (by decide),
    (C5_enum_lookups sampleOps ⟨[ITypeBase.EnumType "Scale" 4 [(0, "Full"), (1, "Half")]]⟩).2.1
      5 1 (by decide),
    (C5_enum_lookups sampleOps ⟨[ITypeBase.EnumType "Scale" 4 [(0, "Full"), (1, "Half")]]⟩).2.2.1
      "Scale" "Half" (ITypeBase.EnumType "Scale" 4 [(0, "Full"), (1, "Half")]) rfl⟩

end TypesCollectionBase

end ReliveAPI

/-! The ordered map -/

namespace std

namespace map

theorem find_eq_none_iff {K V : Type} [DecidableEq K] (m : map K V) (k : K) :
    find m k = none ↔ k ∉ keys m := by
  induction m with
  | nil => simp [find, keys]
  | cons kv rest ih =>
    obtain ⟨k1, v1⟩ := kv
    by_cases h : k1 = k
    · simp [find, keys, h]
    · have h2 : ¬ k = k1 := fun e => h e.symm
      simp only [find, h, if_false, ih, keys, List.map_cons, List.mem_cons, h2, false_or]

theorem find_assign {K V : Type} [LinearOrder K] [DecidableEq K] (m : map K V) (k : K) (v : V) (k2 : K) :
    find (assign m k v) k2 = if k = k2 then some v else find m k2 := by
  induction m with
  | nil => simp [assign, find]
  | cons kv rest ih =>
    obtain ⟨k1, v1⟩ := kv
    by_cases hk : k = k2
    · simp only [hk, if_true]
      subst hk
      simp only [assign]
      split_ifs with h1 h2
      · simp [find]
      · simp [find]
      · have h3 : ¬ k1 = k := fun e => h2 e.symm
        rw [find, if_neg h3, ih, if_pos rfl]
    · simp only [hk, if_false]
      simp only [assign]
      split_ifs with h1 h2
      · rw [find, if_neg hk]
      · subst h2
        rw [find, if_neg hk, find, if_neg hk]
      · by_cases h3 : k1 = k2
        · rw [find, if_pos h3, find, if_pos h3]
        · rw [find, if_neg h3, ih, if_neg hk, find, if_neg h3]

theorem mem_keys_assign {K V : Type} [LinearOrder K] [DecidableEq K] (m : map K V) (k : K) (v : V) (k2 : K) :
    k2 ∈ keys (assign m k v) ↔ k2 = k ∨ k2 ∈ keys m := by
  induction m with
  | nil => simp [assign, keys]
  | cons kv rest ih =>
    obtain ⟨k1, v1⟩ := kv
    simp only [assign]
    split_ifs with h1 h2
    · simp [keys]
    · subst h2; simp [keys]
    · have ih1 : k2 ∈ List.map Prod.fst (assign rest k v) ↔
          k2 = k ∨ k2 ∈ List.map Prod.fst rest := ih
      simp only [keys, List.map_cons, List.mem_cons, ih1]
      tauto

theorem ordered_assign {K V : Type} [LinearOrder K] [DecidableEq K] (m : map K V) (k : K) (v : V)
    (h : (keys m).Pairwise (· < ·)) : (keys (assign m k v)).Pairwise (· < ·) := by
  induction m with
  | nil => simp [assign, keys]
  | cons kv rest ih =>
    obtain ⟨k1, v1⟩ := kv
    have h0 : List.Pairwise (· < ·) (k1 :: keys rest) := h
    obtain ⟨hhead, htail⟩ := List.pairwise_cons.mp h0
    simp only [assign]
    split_ifs with h1 h2
    · show List.Pairwise (· < ·) (k :: k1 :: keys rest)
      refine List.pairwise_cons.mpr ⟨?_, h0⟩
      intro a ha
      rcases List.mem_cons.mp ha with rfl | ha
      · exact h1
      · exact lt_trans h1 (hhead a ha)
    · subst h2
      exact h0
    · show List.Pairwise (· < ·) (k1 :: keys (assign rest k v))
      refine List.pairwise_cons.mpr ⟨?_, ih htail⟩
      intro a ha
      rcases (mem_keys_assign rest k v a).mp ha with rfl | ha
      · exact lt_of_le_of_ne (not_lt.mp h1) (fun e => h2 e.symm)
      · exact hhead a ha

theorem length_assign {K V : Type} [LinearOrder K] [DecidableEq K] (m : map K V) (k : K) (v : V)
    (h : (keys m).Pairwise (· < ·)) :
    (assign m k v).length = if k ∈ keys m then m.length else m.length + 1 := by
  induction m with
  | nil => simp [assign, keys]
  | cons kv rest ih =>
    obtain ⟨k1, v1⟩ := kv
    have h0 : List.Pairwise (· < ·) (k1 :: keys rest) := h
    obtain ⟨hhead, htail⟩ := List.pairwise_cons.mp h0
    have hk : k ∈ keys ((k1, v1) :: rest) ↔ k = k1 ∨ k ∈ keys rest := by
      simp [keys]
    simp only [assign]
    split_ifs with h1 h2 h3 h4 h5
    · exfalso
      rcases hk.mp h2 with e | hmem
      · exact absurd h1 (by rw [e]; exact lt_irrefl _)
      · exact absurd (lt_trans h1 (hhead k hmem)) (lt_irrefl _)
    · rfl
    · simp
    · exact absurd (hk.mpr (Or.inl h3)) h4
    · have hmem : k ∈ keys rest := by
        rcases hk.mp h5 with e | hmem
        · exact absurd e h3
        · exact hmem
      simp [ih htail, hmem]
    · have hmem : k ∉ keys rest := fun hm => h5 (hk.mpr (Or.inr hm))
      simp [ih htail, hmem]

end map

end std

/-! The variant factory: lookups and registration -/

namespace ReliveAPI

namespace TlvFactory

/-- C6: for a tag that is not a key of `mTlvFactory`, `MakeTlvByEnum` returns
`nullptr` without throwing, for every record and instance count, and for a
name that is not a key of `mReverseTlvFactory` so does `MakeTlvByName`; both
leave the factory and the type registry as they were. -/
theorem C6_unknown_kind_returns_null {R F : Type} (self : TlvFactory R F)
    (typesCollection : TypesCollectionBase) :
    (∀ (tlvType : Int) (pTlv : Option R) (instanceCount : Int),
        tlvType ∉ std.map.keys self.mTlvFactory →
          MakeTlvByEnum self typesCollection tlvType pTlv instanceCount =
            ⟨.ok none, typesCollection, self⟩) ∧
      (∀ (tlvTypeName : String) (pTlv : Option R),
        tlvTypeName ∉ std.map.keys self.mReverseTlvFactory →
          MakeTlvByName self typesCollection tlvTypeName pTlv =
            ⟨.ok none, typesCollection, self⟩) := by
  constructor
  · intro tlvType pTlv instanceCount h
    simp [MakeTlvByEnum, (std.map.find_eq_none_iff _ _).mpr h]
  · intro tlvTypeName pTlv h
    simp [MakeTlvByName, (std.map.find_eq_none_iff _ _).mpr h]

/-- A run of C6 on a factory holding one kind: tag 2 and name "B" are unknown. -/
theorem C6_unknown_kind_returns_null_witness :
    MakeTlvByEnum (DoRegisterType empty (sampleKind "A" 1 0) ⟨[]⟩).self ⟨[]⟩ 2 (some ()) 7 =
        ⟨.ok none, ⟨[]⟩, (DoRegisterType empty (sampleKind "A" 1 0) ⟨[]⟩).self⟩ ∧
      MakeTlvByName (DoRegisterType empty (sampleKind "A" 1 0) ⟨[]⟩).self ⟨[]⟩ "B" none =
        ⟨.ok none, ⟨[]⟩, (DoRegisterType empty (sampleKind "A" 1 0) ⟨[]⟩).self⟩ :=
  ⟨(C6_unknown_kind_returns_null (DoRegisterType empty (sampleKind "A" 1 0) ⟨[]⟩).self ⟨[]⟩).1
      2 (some ()) 7 (by decide),
    (C6_unknown_kind_returns_null (DoRegisterType empty (sampleKind "A" 1 0) ⟨[]⟩).self ⟨[]⟩).2
      "B" none (by decide)⟩

theorem DoRegisterType_ok {R F : Type} (self : TlvFactory R F) (W : TlvWrapperType R F)
    (types : TypesCollectionBase) (h : (DoRegisterType self W types).result = .ok ()) :
    (DoRegisterType self W types).self =
      ⟨std.map.assign self.mTlvFactory W.TlvType (fnCreate W),
        std.map.assign self.mReverseTlvFactory W.Name (fnCreate W)⟩ := by
  unfold DoRegisterType at h ⊢
  rcases hA : W.AddTypes types with ⟨r, t1⟩
  rw [hA] at h
  cases r with
  | error ex => simp at h
  | ok u => rfl

theorem DoRegisterType_error {R F : Type} (self : TlvFactory R F) (W : TlvWrapperType R F)
    (types : TypesCollectionBase) (ex : Exception)
    (h : (DoRegisterType self W types).result = .error ex) :
    (DoRegisterType self W types).self = self := by
  unfold DoRegisterType at h ⊢
  rcases hA : W.AddTypes types with ⟨r, t1⟩
  rw [hA] at h
  cases r with
  | error ex => rfl
  | ok u => simp at h

/-- What the two maps of a built factory hold: under a tag, the constructor of
the most recent kind reporting the tag; under a name, the constructor of the
most recent kind reporting the name. Both maps are in ascending key order. -/
theorem Built_find {R F : Type} {Ws : List (TlvWrapperType R F)} {f : TlvFactory R F}
    (hb : Built Ws f) :
    (∀ T, std.map.find f.mTlvFactory T = (kindOfTag T Ws).map fnCreate) ∧
      (∀ N, std.map.find f.mReverseTlvFactory N = (kindOfName N Ws).map fnCreate) ∧
      (std.map.keys f.mTlvFactory).Pairwise (· < ·) ∧
      (std.map.keys f.mReverseTlvFactory).Pairwise (· < ·) := by
  induction hb with
  | empty =>
    refine ⟨fun T => rfl, fun N => rfl, ?_, ?_⟩ <;> simp [empty, std.map.keys]
  | @registered Ws f W types _ hok ih =>
    obtain ⟨h1, h2, h3, h4⟩ := ih
    rw [DoRegisterType_ok f W types hok]
    refine ⟨?_, ?_, std.map.ordered_assign _ _ _ h3, std.map.ordered_assign _ _ _ h4⟩
    · intro T
      rw [std.map.find_assign, h1 T]
      by_cases h : W.TlvType = T
      · simp [kindOfTag, List.find?, h]
      · simp [kindOfTag, List.find?, h]
    · intro N
      rw [std.map.find_assign, h2 N]
      by_cases h : W.Name = N
      · simp [kindOfName, List.find?, h]
      · simp [kindOfName, List.find?, h]
  | @failed Ws f W types ex _ herr ih =>
    rw [DoRegisterType_error f W types ex herr]
    exact ih

theorem find?_congr_on {α : Type} (l : List α) (p q : α → Bool)
    (h : ∀ x ∈ l, p x = q x) : l.find? p = l.find? q := by
  induction l with
  | nil => rfl
  | cons a rest ih =>
    have ha := h a (List.mem_cons_self _ _)
    have hr := ih (fun x hx => h x (List.mem_cons_of_mem _ hx))
    simp only [List.find?, ha, hr]

/-- Under the lockstep condition the kind registered under a tag is the kind
registered under the name it reports. -/
theorem kindOfName_of_kindOfTag {R F : Type} {Ws : List (TlvWrapperType R F)}
    (hlock : ∀ W1 ∈ Ws, ∀ W2 ∈ Ws, W1.TlvType = W2.TlvType ↔ W1.Name = W2.Name)
    {T : Int} {W : TlvWrapperType R F} (h : kindOfTag T Ws = some W) :
    kindOfName W.Name Ws = some W := by
  have hmem : W ∈ Ws := List.mem_of_find?_eq_some h
  have hT : W.TlvType = T := by simpa using List.find?_some h
  rw [← h]
  unfold kindOfName kindOfTag
  apply find?_congr_on
  intro x hx
  have := hlock x hx W hmem
  rw [hT] at this
  simp only [decide_eq_decide]
  exact this.symm

/-- Under the lockstep condition the kind registered under a name is the kind
registered under the tag it reports. -/
theorem kindOfTag_of_kindOfName {R F : Type} {Ws : List (TlvWrapperType R F)}
    (hlock : ∀ W1 ∈ Ws, ∀ W2 ∈ Ws, W1.TlvType = W2.TlvType ↔ W1.Name = W2.Name)
    {N : String} {W : TlvWrapperType R F} (h : kindOfName N Ws = some W) :
    kindOfTag W.TlvType Ws = some W := by
  have hmem : W ∈ Ws := List.mem_of_find?_eq_some h
  have hN : W.Name = N := by simpa using List.find?_some h
  rw [← h]
  unfold kindOfName kindOfTag
  apply find?_congr_on
  intro x hx
  have := hlock x hx W hmem
  rw [hN] at this
  simp only [decide_eq_decide]
  exact this

end TlvFactory

end ReliveAPI

namespace ReliveAPI

namespace TlvFactory

theorem fnCreate_document {R F : Type} (W : TlvWrapperType R F) (types : TypesCollectionBase)
    (r : Option R) (i : Int) (self : TlvFactory R F) :
    (returnedDocument ⟨(fnCreate W types r i).1, (fnCreate W types r i).2, self⟩).map
        (fun d => { d with instance_index := 0 }) =
      returnedDocument ⟨(fnCreate W types r 0).1, (fnCreate W types r 0).2, self⟩ := by
  unfold fnCreate returnedDocument
  rcases hc : W.ctor types r with ⟨res, t1⟩
  cases res with
  | error ex => rfl
  | ok fields => rfl

/-- C7 as stated fails, twice. With one kind ("A", tag 1) registered,
`MakeTlvByEnum(1, nullptr, 5)` yields a document with instance index 5 and
`MakeTlvByName("A", nullptr)` one with instance index 0. And with two kinds
reporting the name "A" under the tags 1 and 2, the kind of tag 1 reports "A"
but `MakeTlvByName("A", nullptr)` builds the kind of tag 2, with other fields. -/
theorem C7_documents_differ :
    (returnedDocument (MakeTlvByEnum (DoRegisterType empty (sampleKind "A" 1 0) ⟨[]⟩).self
          ⟨[]⟩ 1 none 5) = some ⟨"A", 5, 0⟩ ∧
      returnedDocument (MakeTlvByName (DoRegisterType empty (sampleKind "A" 1 0) ⟨[]⟩).self
          ⟨[]⟩ "A" none) = some ⟨"A", 0, 0⟩) ∧
    (returnedDocument (MakeTlvByEnum
          (DoRegisterType (DoRegisterType empty (sampleKind "A" 1 10) ⟨[]⟩).self
            (sampleKind "A" 2 20) ⟨[]⟩).self ⟨[]⟩ 1 none 0) = some ⟨"A", 0, 10⟩ ∧
      returnedDocument (MakeTlvByName
          (DoRegisterType (DoRegisterType empty (sampleKind "A" 1 10) ⟨[]⟩).self
            (sampleKind "A" 2 20) ⟨[]⟩).self ⟨[]⟩ "A" none) = some ⟨"A", 0, 20⟩) := by
  refine ⟨⟨rfl, rfl⟩, ⟨rfl, ?_⟩⟩
  simp [DoRegisterType, sampleKind, empty, std.map.assign, std.map.find, MakeTlvByName,
    returnedDocument, fnCreate, TlvObjectBase.SetInstanceNumber, TlvObjectBase.ToDocument]

/-- C7, amended: in a factory built by `DoRegisterType` calls in which two
registered kinds report the same tag exactly when they report the same name,
for every registered tag `T` whose kind `W` reports the name `W.Name`, every
registry, record and instance count: `MakeTlvByEnum(T, r, i)` is the call
`fnCreate(types, r, i)` of the kind and `MakeTlvByName(W.Name, r)` is the call
`fnCreate(types, r, 0)` of the same kind. So the two agree when `i = 0`, and for
every `i` their documents are identical once the instance index of the
`MakeTlvByEnum` document is set to 0 (same variant name, same fields). -/
theorem C7_same_constructor {R F : Type} {Ws : List (TlvWrapperType R F)} {f : TlvFactory R F}
    (hb : Built Ws f)
    (hlock : ∀ W1 ∈ Ws, ∀ W2 ∈ Ws, W1.TlvType = W2.TlvType ↔ W1.Name = W2.Name)
    (T : Int) (W : TlvWrapperType R F) (hT : kindOfTag T Ws = some W)
    (types : TypesCollectionBase) (r : Option R) (i : Int) :
    MakeTlvByEnum f types T r i = ⟨(fnCreate W types r i).1, (fnCreate W types r i).2, f⟩ ∧
      MakeTlvByName f types W.Name r =
        ⟨(fnCreate W types r 0).1, (fnCreate W types r 0).2, f⟩ ∧
      MakeTlvByName f types W.Name r = MakeTlvByEnum f types T r 0 ∧
      (returnedDocument (MakeTlvByEnum f types T r i)).map
          (fun d => { d with instance_index := 0 }) =
        returnedDocument (MakeTlvByName f types W.Name r) := by
  obtain ⟨h1, h2, _, _⟩ := Built_find hb
  have hN := kindOfName_of_kindOfTag hlock hT
  have e1 : ∀ j, MakeTlvByEnum f types T r j =
      ⟨(fnCreate W types r j).1, (fnCreate W types r j).2, f⟩ := by
    intro j
    simp [MakeTlvByEnum, h1 T, hT]
  have e2 : MakeTlvByName f types W.Name r =
      ⟨(fnCreate W types r 0).1, (fnCreate W types r 0).2, f⟩ := by
    simp [MakeTlvByName, h2 W.Name, hN]
  refine ⟨e1 i, e2, ?_, ?_⟩
  · rw [e2, e1 0]
  · rw [e2, e1 i]
    exact fnCreate_document W types r i f

/-- A run of C7 on a factory holding the kinds ("A", 1) and ("B", 2): tag 2
with the count 5 and name "B" give the same document up to the instance index. -/
theorem C7_same_constructor_witness :
    (returnedDocument (MakeTlvByEnum
        (DoRegisterType (DoRegisterType empty (sampleKind "A" 1 10) ⟨[]⟩).self
          (sampleKind "B" 2 20) ⟨[]⟩).self ⟨[]⟩ 2 none 5)).map
        (fun d => { d with instance_index := 0 }) =
      returnedDocument (MakeTlvByName
        (DoRegisterType (DoRegisterType empty (sampleKind "A" 1 10) ⟨[]⟩).self
          (sampleKind "B" 2 20) ⟨[]⟩).self ⟨[]⟩ (sampleKind "B" 2 20).Name none) :=
  (C7_same_constructor
    (Built.registered (sampleKind "B" 2 20) ⟨[]⟩
      (Built.registered (sampleKind "A" 1 10) ⟨[]⟩ Built.empty rfl) rfl)
    (by
      intro W1 h1 W2 h2
      simp only [List.mem_cons, List.mem_singleton, List.not_mem_nil, or_false] at h1 h2
      rcases h1 with rfl | rfl <;> rcases h2 with rfl | rfl <;> simp [sampleKind])
    2 (sampleKind "B" 2 20) rfl ⟨[]⟩ none 5).2.2.2

end TlvFactory

end ReliveAPI

namespace ReliveAPI

namespace TlvFactory

theorem mem_keys_tag {R F : Type} {Ws : List (TlvWrapperType R F)} {f : TlvFactory R F}
    (hb : Built Ws f) (T : Int) :
    T ∈ std.map.keys f.mTlvFactory ↔ ∃ W ∈ Ws, W.TlvType = T := by
  have h := (Built_find hb).1 T
  have hn := std.map.find_eq_none_iff f.mTlvFactory T
  constructor
  · intro hmem
    cases hk : kindOfTag T Ws with
    | none =>
      rw [hk] at h
      exact absurd hmem (hn.mp h)
    | some W =>
      exact ⟨W, List.mem_of_find?_eq_some hk, by simpa using List.find?_some hk⟩
  · rintro ⟨W, hW, hT⟩
    by_contra hmem
    rw [hn.mpr hmem] at h
    have hk : kindOfTag T Ws = none := by
      cases hk : kindOfTag T Ws with
      | none => rfl
      | some X => rw [hk] at h; simp at h
    have := List.find?_eq_none.mp hk W hW
    simp [hT] at this

theorem mem_keys_name {R F : Type} {Ws : List (TlvWrapperType R F)} {f : TlvFactory R F}
    (hb : Built Ws f) (N : String) :
    N ∈ std.map.keys f.mReverseTlvFactory ↔ ∃ W ∈ Ws, W.Name = N := by
  have h := (Built_find hb).2.1 N
  have hn := std.map.find_eq_none_iff f.mReverseTlvFactory N
  constructor
  · intro hmem
    cases hk : kindOfName N Ws with
    | none =>
      rw [hk] at h
      exact absurd hmem (hn.mp h)
    | some W =>
      exact ⟨W, List.mem_of_find?_eq_some hk, by simpa using List.find?_some hk⟩
  · rintro ⟨W, hW, hT⟩
    by_contra hmem
    rw [hn.mpr hmem] at h
    have hk : kindOfName N Ws = none := by
      cases hk : kindOfName N Ws with
      | none => rfl
      | some X => rw [hk] at h; simp at h
    have := List.find?_eq_none.mp hk W hW
    simp [hT] at this

/-- Under the lockstep condition the two maps of a built factory have the same
number of entries. -/
theorem Built_length {R F : Type} {Ws : List (TlvWrapperType R F)} {f : TlvFactory R F}
    (hb : Built Ws f)
    (hlock : ∀ W1 ∈ Ws, ∀ W2 ∈ Ws, W1.TlvType = W2.TlvType ↔ W1.Name = W2.Name) :
    f.mTlvFactory.length = f.mReverseTlvFactory.length := by
  induction hb with
  | empty => rfl
  | @registered Ws f W types hb hok ih =>
    have hlock1 : ∀ W1 ∈ Ws, ∀ W2 ∈ Ws, W1.TlvType = W2.TlvType ↔ W1.Name = W2.Name :=
      fun W1 h1 W2 h2 => hlock W1 (List.mem_cons_of_mem _ h1) W2 (List.mem_cons_of_mem _ h2)
    have hlen := ih hlock1
    obtain ⟨_, _, h3, h4⟩ := Built_find hb
    rw [DoRegisterType_ok f W types hok]
    show (std.map.assign f.mTlvFactory W.TlvType (fnCreate W)).length =
      (std.map.assign f.mReverseTlvFactory W.Name (fnCreate W)).length
    rw [std.map.length_assign _ _ _ h3, std.map.length_assign _ _ _ h4, hlen]
    have hiff : W.TlvType ∈ std.map.keys f.mTlvFactory ↔
        W.Name ∈ std.map.keys f.mReverseTlvFactory := by
      rw [mem_keys_tag hb, mem_keys_name hb]
      constructor
      · rintro ⟨X, hX, hT⟩
        exact ⟨X, hX, (hlock X (List.mem_cons_of_mem _ hX) W (List.mem_cons_self _ _)).mp hT⟩
      · rintro ⟨X, hX, hN⟩
        exact ⟨X, hX, (hlock X (List.mem_cons_of_mem _ hX) W (List.mem_cons_self _ _)).mpr hN⟩
    by_cases hm : W.TlvType ∈ std.map.keys f.mTlvFactory
    · rw [if_pos hm, if_pos (hiff.mp hm)]
    · rw [if_neg hm, if_neg (fun h => hm (hiff.mpr h))]
  | @failed Ws f W types ex _ herr ih =>
    rw [DoRegisterType_error f W types ex herr]
    exact ih hlock

/-- C8 as stated fails: after registering two kinds that report the same name
"A" under the tags 1 and 2, the tag map has two entries and the name map one. -/
theorem C8_tables_out_of_step :
    Built [sampleKind "A" 2 20, sampleKind "A" 1 10]
        (DoRegisterType (DoRegisterType empty (sampleKind "A" 1 10) ⟨[]⟩).self
          (sampleKind "A" 2 20) ⟨[]⟩).self ∧
      (DoRegisterType (DoRegisterType empty (sampleKind "A" 1 10) ⟨[]⟩).self
          (sampleKind "A" 2 20) ⟨[]⟩).self.mTlvFactory.length = 2 ∧
      (DoRegisterType (DoRegisterType empty (sampleKind "A" 1 10) ⟨[]⟩).self
          (sampleKind "A" 2 20) ⟨[]⟩).self.mReverseTlvFactory.length = 1 := by
  refine ⟨Built.registered (sampleKind "A" 2 20) ⟨[]⟩
      (Built.registered (sampleKind "A" 1 10) ⟨[]⟩ Built.empty rfl) rfl, rfl, ?_⟩
  simp [DoRegisterType, sampleKind, empty, std.map.assign]

/-- C8, amended: after any sequence of `DoRegisterType` calls in which two
registered kinds report the same tag exactly when they report the same name,
the tag map and the name map have the same number of entries; every registered
tag corresponds to exactly one name (the one its kinds report), registered and
holding the same constructor; and every registered name corresponds to exactly
one tag, registered and holding the same constructor. -/
theorem C8_lockstep {R F : Type} {Ws : List (TlvWrapperType R F)} {f : TlvFactory R F}
    (hb : Built Ws f)
    (hlock : ∀ W1 ∈ Ws, ∀ W2 ∈ Ws, W1.TlvType = W2.TlvType ↔ W1.Name = W2.Name) :
    f.mTlvFactory.length = f.mReverseTlvFactory.length ∧
      (∀ T ∈ std.map.keys f.mTlvFactory,
        ∃! N, (∃ W ∈ Ws, W.TlvType = T ∧ W.Name = N) ∧
          N ∈ std.map.keys f.mReverseTlvFactory ∧
          std.map.find f.mReverseTlvFactory N = std.map.find f.mTlvFactory T) ∧
      (∀ N ∈ std.map.keys f.mReverseTlvFactory,
        ∃! T, (∃ W ∈ Ws, W.Name = N ∧ W.TlvType = T) ∧
          T ∈ std.map.keys f.mTlvFactory ∧
          std.map.find f.mTlvFactory T = std.map.find f.mReverseTlvFactory N) := by
  obtain ⟨h1, h2, _, _⟩ := Built_find hb
  refine ⟨Built_length hb hlock, ?_, ?_⟩
  · intro T hT
    obtain ⟨X, hX, hXT⟩ := (mem_keys_tag hb T).mp hT
    cases hk : kindOfTag T Ws with
    | none =>
      have := List.find?_eq_none.mp hk X hX
      simp [hXT] at this
    | some W =>
      have hW : W ∈ Ws := List.mem_of_find?_eq_some hk
      have hWT : W.TlvType = T := by simpa using List.find?_some hk
      refine ⟨W.Name, ⟨⟨W, hW, hWT, rfl⟩, (mem_keys_name hb _).mpr ⟨W, hW, rfl⟩, ?_⟩, ?_⟩
      · rw [h1 T, h2 W.Name, hk, kindOfName_of_kindOfTag hlock hk]
      · rintro N ⟨⟨Y, hY, hYT, hYN⟩, _, _⟩
        rw [← hYN]
        exact (hlock Y hY W hW).mp (hYT.trans hWT.symm)
  · intro N hN
    obtain ⟨X, hX, hXN⟩ := (mem_keys_name hb N).mp hN
    cases hk : kindOfName N Ws with
    | none =>
      have := List.find?_eq_none.mp hk X hX
      simp [hXN] at this
    | some W =>
      have hW : W ∈ Ws := List.mem_of_find?_eq_some hk
      have hWN : W.Name = N := by simpa using List.find?_some hk
      refine ⟨W.TlvType, ⟨⟨W, hW, hWN, rfl⟩, (mem_keys_tag hb _).mpr ⟨W, hW, rfl⟩, ?_⟩, ?_⟩
      · rw [h2 N, h1 W.TlvType, hk, kindOfTag_of_kindOfName hlock hk]
      · rintro T ⟨⟨Y, hY, hYN, hYT⟩, _, _⟩
        rw [← hYT]
        exact (hlock Y hY W hW).mpr (hYN.trans hWN.symm)

/-- A run of C8: three registrations, the kind ("A", 1) twice, give two entries
in each map. -/
theorem C8_lockstep_witness :
    (DoRegisterType (DoRegisterType (DoRegisterType empty (sampleKind "A" 1 10) ⟨[]⟩).self
        (sampleKind "B" 2 20) ⟨[]⟩).self (sampleKind "A" 1 30) ⟨[]⟩).self.mTlvFactory.length =
      (DoRegisterType (DoRegisterType (DoRegisterType empty (sampleKind "A" 1 10) ⟨[]⟩).self
        (sampleKind "B" 2 20) ⟨[]⟩).self (sampleKind "A" 1 30)
          ⟨[]⟩).self.mReverseTlvFactory.length :=
  (C8_lockstep
    (Built.registered (sampleKind "A" 1 30) ⟨[]⟩
      (Built.registered (sampleKind "B" 2 20) ⟨[]⟩
        (Built.registered (sampleKind "A" 1 10) ⟨[]⟩ Built.empty rfl) rfl) rfl)
    (by
      intro W1 h1 W2 h2
      simp only [List.mem_cons, List.mem_singleton, List.not_mem_nil, or_false] at h1 h2
      rcases h1 with rfl | rfl | rfl <;> rcases h2 with rfl | rfl | rfl <;>
        simp [sampleKind])).1

end TlvFactory

end ReliveAPI

namespace std

namespace map

theorem find_of_mem {K V : Type} [LinearOrder K] [DecidableEq K] (m : map K V) (k : K) (v : V)
    (h : (keys m).Pairwise (· < ·)) (hmem : (k, v) ∈ m) : find m k = some v := by
  induction m with
  | nil => exact absurd hmem (List.not_mem_nil _)
  | cons kv rest ih =>
    obtain ⟨k1, v1⟩ := kv
    have h0 : List.Pairwise (· < ·) (k1 :: keys rest) := h
    obtain ⟨hhead, htail⟩ := List.pairwise_cons.mp h0
    rcases List.mem_cons.mp hmem with e | hr
    · cases e
      simp [find]
    · have hk : k ∈ keys rest := List.mem_map.mpr ⟨(k, v), hr, rfl⟩
      have hne : ¬ k1 = k := fun e => absurd (hhead k hk) (by rw [e]; exact lt_irrefl _)
      rw [find, if_neg hne]
      exact ih htail hr

end map

end std

namespace ReliveAPI

namespace TlvFactory

/-- The loop of `AddTlvsToJsonArray` on a map all of whose constructors build a
default instance: it appends one document per entry, in the order of the map. -/
theorem AddTlvsToJsonArrayLoop_ok {R F J : Type} (StructureToJson : TlvObjectBase F → J)
    (P : Int × FnTlvFactory R F → J → Prop)
    (m : std.map Int (FnTlvFactory R F))
    (hm : ∀ kv ∈ m, ∀ t, ∃ obj t1, kv.2 t none 0 = (.ok (some obj), t1) ∧
      P kv (StructureToJson obj))
    (types : TypesCollectionBase) (array : jsonxx.Array J) :
    ∃ docs types1, AddTlvsToJsonArrayLoop StructureToJson m types array =
        (.ok (), types1, array ++ docs) ∧ List.Forall₂ P m docs := by
  induction m generalizing types array with
  | nil => exact ⟨[], types, by simp [AddTlvsToJsonArrayLoop], List.Forall₂.nil⟩
  | cons kv rest ih =>
    obtain ⟨k, value⟩ := kv
    obtain ⟨obj, t1, hval, hP⟩ := hm (k, value) (List.mem_cons_self _ _) types
    obtain ⟨docs, t2, hloop, hall⟩ :=
      ih (fun kv h => hm kv (List.mem_cons_of_mem _ h)) t1 (array ++ [StructureToJson obj])
    refine ⟨StructureToJson obj :: docs, t2, ?_, List.Forall₂.cons hP hall⟩
    have hval1 : value types none 0 = (.ok (some obj), t1) := hval
    simp only [AddTlvsToJsonArrayLoop, hval1, hloop, List.append_assoc, List.singleton_append]

/-- C9: on a factory built by `DoRegisterType` calls whose registered kinds can
build their default instance, `AddTlvsToJsonArray` returns with the given array
followed by exactly one document per entry of `mTlvFactory`, in the order of
the map, which is strictly ascending tag order; the document of a tag is
`StructureToJson()` of the wrapper its kind builds from no record with instance
number 0. The length grows by the number of registered tags. -/
theorem C9_AddTlvsToJsonArray {R F J : Type} {Ws : List (TlvWrapperType R F)}
    {f : TlvFactory R F} (hb : Built Ws f)
    (hctor : ∀ T W, kindOfTag T Ws = some W → ∀ t, ∃ fields t1, W.ctor t none = (.ok fields, t1))
    (StructureToJson : TlvObjectBase F → J) (types : TypesCollectionBase)
    (array : jsonxx.Array J) :
    ∃ docs types1,
      AddTlvsToJsonArray StructureToJson f types array = (.ok (), types1, array ++ docs) ∧
        (array ++ docs).length = array.length + f.mTlvFactory.length ∧
        (std.map.keys f.mTlvFactory).Pairwise (· < ·) ∧
        List.Forall₂ (fun kv doc => ∃ W t fields t1, kindOfTag kv.1 Ws = some W ∧
            W.ctor t none = (.ok fields, t1) ∧
            doc = StructureToJson ⟨W.Name, W.TlvType, fields, 0⟩) f.mTlvFactory docs := by
  obtain ⟨h1, _, h3, _⟩ := Built_find hb
  have hm : ∀ kv ∈ f.mTlvFactory, ∀ t, ∃ obj t1, kv.2 t none 0 = (.ok (some obj), t1) ∧
      (fun (kv : Int × FnTlvFactory R F) doc => ∃ W t fields t1, kindOfTag kv.1 Ws = some W ∧
        W.ctor t none = (.ok fields, t1) ∧
        doc = StructureToJson ⟨W.Name, W.TlvType, fields, 0⟩) kv (StructureToJson obj) := by
    rintro ⟨k, value⟩ hkv t
    have hfind := std.map.find_of_mem f.mTlvFactory k value h3 hkv
    rw [h1 k] at hfind
    cases hk : kindOfTag k Ws with
    | none => rw [hk] at hfind; simp at hfind
    | some W =>
      rw [hk] at hfind
      have hv : value = fnCreate W := by simpa using hfind.symm
      obtain ⟨fields, t1, hc⟩ := hctor k W hk t
      refine ⟨⟨W.Name, W.TlvType, fields, 0⟩, t1, ?_, W, t, fields, t1, hk, hc, rfl⟩
      subst hv
      simp [fnCreate, hc, TlvObjectBase.SetInstanceNumber]
  obtain ⟨docs, t2, hloop, hall⟩ :=
    AddTlvsToJsonArrayLoop_ok StructureToJson
      (fun (kv : Int × FnTlvFactory R F) doc => ∃ W t fields t1, kindOfTag kv.1 Ws = some W ∧
        W.ctor t none = (.ok fields, t1) ∧
        doc = StructureToJson ⟨W.Name, W.TlvType, fields, 0⟩) f.mTlvFactory hm types array
  refine ⟨docs, t2, hloop, ?_, h3, hall⟩
  rw [List.length_append, hall.length_eq]

/-- A run of C9: the kinds ("B", 2) and ("A", 1) registered in that order give
the documents of tag 1 and tag 2, in that order, after the entry already in
the array. -/
theorem C9_AddTlvsToJsonArray_witness :
    ∃ docs types1,
      AddTlvsToJsonArray TlvObjectBase.ToDocument
          (DoRegisterType (DoRegisterType empty (sampleKind "B" 2 20) ⟨[]⟩).self
            (sampleKind "A" 1 10) ⟨[]⟩).self ⟨[]⟩ [Document.mk "Z" 0 0] =
        (.ok (), types1, [Document.mk "Z" 0 0] ++ docs) ∧
      ([Document.mk "Z" 0 0] ++ docs).length = [Document.mk "Z" 0 0].length + 2 :=
  have h := C9_AddTlvsToJsonArray
    (Built.registered (sampleKind "A" 1 10) ⟨[]⟩
      (Built.registered (sampleKind "B" 2 20) ⟨[]⟩ Built.empty rfl) rfl)
    (by
      intro T W hk t
      have hW : W ∈ [sampleKind "A" 1 10, sampleKind "B" 2 20] := List.mem_of_find?_eq_some hk
      simp only [List.mem_cons, List.mem_singleton, List.not_mem_nil, or_false] at hW
      rcases hW with rfl | rfl
      · exact ⟨10, t, rfl⟩
      · exact ⟨20, t, rfl⟩)
    TlvObjectBase.ToDocument ⟨[]⟩ [Document.mk "Z" 0 0]
  match h with
  | ⟨docs, types1, h1, h2, _, _⟩ => ⟨docs, types1, h1, h2⟩

end TlvFactory

end ReliveAPI

/-! The two exports of the registry -/

namespace ReliveAPI

namespace TypesCollectionBase

theorem EnumsToJsonLoop_eq {J : Type} (ops : TypeOps J) (ret : jsonxx.Array J)
    (l : List ITypeBase) :
    EnumsToJsonLoop ops ret l =
      (l.filter (fun d => !d.IsBasicType)).foldl (fun r d => ops.ToJson d r) ret := by
  induction l generalizing ret with
  | nil => rfl
  | cons d rest ih =>
    cases hd : d.IsBasicType <;> simp [EnumsToJsonLoop, hd, ih, List.filter]

theorem BasicTypesToJsonLoop_eq {J : Type} (ops : TypeOps J) (ret : jsonxx.Array J)
    (l : List ITypeBase) :
    BasicTypesToJsonLoop ops ret l =
      (l.filter (fun d => d.IsBasicType)).foldl (fun r d => ops.ToJson d r) ret := by
  induction l generalizing ret with
  | nil => rfl
  | cons d rest ih =>
    cases hd : d.IsBasicType <;> simp [BasicTypesToJsonLoop, hd, ih, List.filter]

/-- C10: `EnumsToJson` is `ToJson` applied, from the empty array and in
registration order, to exactly the enum descriptors, and `BasicTypesToJson` the
same for exactly the bounded-integer descriptors; the two selections are
disjoint and together hold every registered descriptor once; and neither call
changes the registry. -/
theorem C10_exports {J : Type} (ops : TypeOps J) (self : TypesCollectionBase) :
    self.EnumsToJson ops =
        (self.mTypes.filter (fun d => !d.IsBasicType)).foldl (fun r d => ops.ToJson d r) [] ∧
      self.BasicTypesToJson ops =
        (self.mTypes.filter (fun d => d.IsBasicType)).foldl (fun r d => ops.ToJson d r) [] ∧
      (∀ d, (!d.IsBasicType) = true ↔ ∃ n t m, d = ITypeBase.EnumType n t m) ∧
      (∀ d, d.IsBasicType = true ↔ ∃ n t lo hi, d = ITypeBase.BasicType n t lo hi) ∧
      (self.mTypes.filter (fun d => !d.IsBasicType)).Sublist self.mTypes ∧
      (self.mTypes.filter (fun d => d.IsBasicType)).Sublist self.mTypes ∧
      (self.mTypes.filter (fun d => d.IsBasicType) ++
        self.mTypes.filter (fun d => !d.IsBasicType)).Perm self.mTypes ∧
      (∀ d, ¬ (d ∈ self.mTypes.filter (fun d => d.IsBasicType) ∧
        d ∈ self.mTypes.filter (fun d => !d.IsBasicType))) ∧
      call ops self .EnumsToJson = (.array (self.EnumsToJson ops), self) ∧
      call ops self .BasicTypesToJson = (.array (self.BasicTypesToJson ops), self) := by
  refine ⟨EnumsToJsonLoop_eq ops [] _, BasicTypesToJsonLoop_eq ops [] _, ?_, ?_,
    List.filter_sublist _, List.filter_sublist _, List.filter_append_perm _ _, ?_, rfl, rfl⟩
  · intro d
    cases d <;> simp [ITypeBase.IsBasicType]
  · intro d
    cases d <;> simp [ITypeBase.IsBasicType]
  · intro d ⟨h1, h2⟩
    have a := (List.mem_filter.mp h1).2
    have b := (List.mem_filter.mp h2).2
    simp [a] at b

/-- A run of the two exports on a registry holding an enum between two bounded
integers, the document of a descriptor being the descriptor. -/
theorem exports_example :
    EnumsToJson sampleOps ⟨[ITypeBase.BasicType "u16" 1 0 65535, ITypeBase.EnumType "Scale" 4 [],
        ITypeBase.BasicType "s16" 2 (-32768) 32767]⟩ = [ITypeBase.EnumType "Scale" 4 []] ∧
      BasicTypesToJson sampleOps ⟨[ITypeBase.BasicType "u16" 1 0 65535,
        ITypeBase.EnumType "Scale" 4 [], ITypeBase.BasicType "s16" 2 (-32768) 32767]⟩ =
        [ITypeBase.BasicType "u16" 1 0 65535, ITypeBase.BasicType "s16" 2 (-32768) 32767] :=
  ⟨rfl, rfl⟩

end TypesCollectionBase

end ReliveAPI

namespace ReliveAPI

namespace TlvFactory

/-- A run of `AddTlvsToJsonArray`: the kinds ("B", 2) and ("A", 1), registered
in that order, are exported in tag order after the entry already there. -/
theorem AddTlvsToJsonArray_example :
    AddTlvsToJsonArray TlvObjectBase.ToDocument
        (DoRegisterType (DoRegisterType empty (sampleKind "B" 2 20) ⟨[]⟩).self
          (sampleKind "A" 1 10) ⟨[]⟩).self ⟨[]⟩ [Document.mk "Z" 0 0] =
      (.ok (), ⟨[]⟩, [Document.mk "Z" 0 0, Document.mk "A" 0 10, Document.mk "B" 0 20]) :=
  rfl

end TlvFactory

end ReliveAPI

/-! The registry only grows -/

namespace ReliveAPI

namespace TypesCollectionBase

/-- A call either leaves the registry as it was or appends one descriptor, the
one it returns a pointer to; the second happens for `AddEnum` and
`AddBasicType` only. -/
theorem call_cases {J : Type} (ops : TypeOps J) (self : TypesCollectionBase) (c : Call) :
    ((call ops self c).2 = self ∧ ∀ d, (call ops self c).1 ≠ .pointer (some d)) ∨
      ∃ d, (call ops self c).1 = .pointer (some d) ∧
        (call ops self c).2 = ⟨self.mTypes ++ [d]⟩ ∧
        self.TypeName d.TypeIndex = "" ∧
        c.registers = some (d.Name, d.TypeIndex) := by
  cases c with
  | AddEnum T enumName enumItems =>
    simp only [call, AddEnum]
    by_cases hT : self.TypeName T = ""
    · simp only [hT, not_true_eq_false, if_false]
      cases hitems : AddEnumItems ops [] enumItems with
      | error ex => left; simp
      | ok m => right; exact ⟨ITypeBase.EnumType enumName T m, rfl, rfl, hT, rfl⟩
    · left; simp [hT]
  | AddBasicType T typeName minVal maxVal =>
    simp only [call, AddBasicType]
    by_cases hT : self.TypeName T = ""
    · right
      simp only [hT, not_true_eq_false, if_false]
      exact ⟨ITypeBase.BasicType typeName T minVal maxVal, rfl, rfl, hT, rfl⟩
    · left; simp [hT]
  | TypeName typeIndex => left; simp [call]
  | EnumValueFromString a b =>
    left
    simp only [call]
    cases self.EnumValueFromString ops a b <;> simp
  | EnumValueToString a b =>
    left
    simp only [call]
    cases self.EnumValueToString ops a b <;> simp
  | EnumsToJson => left; simp [call]
  | BasicTypesToJson => left; simp [call]

theorem call_extends {J : Type} (ops : TypeOps J) (self : TypesCollectionBase) (c : Call) :
    self.mTypes <+: (call ops self c).2.mTypes := by
  rcases call_cases ops self c with ⟨h, _⟩ | ⟨d, _, h, _⟩
  · rw [h]
  · rw [h]; exact List.prefix_append _ _

theorem run_extends {J : Type} (ops : TypeOps J) (calls : List Call) (self : TypesCollectionBase) :
    self.mTypes <+: (run ops self calls).mTypes := by
  induction calls generalizing self with
  | nil => exact List.prefix_refl _
  | cons c rest ih =>
    simp only [run, List.foldl_cons]
    exact (call_extends ops self c).trans (ih _)

/-- C11: for every registry and every call of a public method, the descriptors
before the call are a prefix of the descriptors after it; the registry is
extended only when `AddEnum` or `AddBasicType` returns a new descriptor, and
then by exactly that descriptor, at the end; every other call leaves the
registry as it was. -/
theorem C11_append_only {J : Type} (ops : TypeOps J) (self : TypesCollectionBase) (c : Call) :
    self.mTypes <+: (call ops self c).2.mTypes ∧
      (∀ d, (call ops self c).1 = .pointer (some d) →
        (call ops self c).2.mTypes = self.mTypes ++ [d] ∧ c.registers ≠ none) ∧
      ((∀ d, (call ops self c).1 ≠ .pointer (some d)) → (call ops self c).2 = self) ∧
      (c.registers = none → (call ops self c).2 = self) := by
  refine ⟨call_extends ops self c, ?_, ?_, ?_⟩
  · intro d hd
    rcases call_cases ops self c with ⟨_, h⟩ | ⟨d1, h1, h2, _, h3⟩
    · exact absurd hd (h d)
    · rw [h1] at hd
      cases hd
      rw [h2, h3]
      exact ⟨rfl, by simp⟩
  · intro hno
    rcases call_cases ops self c with ⟨h, _⟩ | ⟨d1, h1, _, _, _⟩
    · exact h
    · exact absurd h1 (hno d1)
  · intro hreg
    rcases call_cases ops self c with ⟨h, _⟩ | ⟨d1, _, _, _, h3⟩
    · exact h
    · rw [hreg] at h3; simp at h3

/-- A run of C11: a successful `AddBasicType` appends its descriptor, a failed
`AddEnum` for the same native type leaves the registry as it was. -/
theorem C11_append_only_witness :
    (call sampleOps ⟨[ITypeBase.EnumType "Scale" 4 []]⟩ (.AddBasicType 1 "u16" 0 65535)).2.mTypes =
        [ITypeBase.EnumType "Scale" 4 []] ++ [ITypeBase.BasicType "u16" 1 0 65535] ∧
      (call sampleOps ⟨[ITypeBase.EnumType "Scale" 4 []]⟩ (.TypeName 4)).2 =
        ⟨[ITypeBase.EnumType "Scale" 4 []]⟩ :=
  ⟨((C11_append_only sampleOps ⟨[ITypeBase.EnumType "Scale" 4 []]⟩
      (.AddBasicType 1 "u16" 0 65535)).2.1 (ITypeBase.BasicType "u16" 1 0 65535) rfl).1,
    (C11_append_only sampleOps ⟨[ITypeBase.EnumType "Scale" 4 []]⟩ (.TypeName 4)).2.2.2 rfl⟩

end TypesCollectionBase

end ReliveAPI

namespace ReliveAPI

namespace TypesCollectionBase

/-- Native types stay pairwise distinct along a run all of whose descriptors,
at the end, have a non-empty name. -/
theorem nodup_run {J : Type} (ops : TypeOps J) (calls : List Call) (self : TypesCollectionBase)
    (hnd : (self.mTypes.map ITypeBase.TypeIndex).Nodup)
    (hne : ∀ d ∈ (run ops self calls).mTypes, d.Name ≠ "") :
    ((run ops self calls).mTypes.map ITypeBase.TypeIndex).Nodup := by
  induction calls generalizing self with
  | nil => exact hnd
  | cons c rest ih =>
    have hrun : run ops self (c :: rest) = run ops (call ops self c).2 rest := rfl
    rw [hrun] at hne ⊢
    apply ih _ _ hne
    have hpre := run_extends ops rest (call ops self c).2
    have hne1 : ∀ d ∈ (call ops self c).2.mTypes, d.Name ≠ "" :=
      fun d hd => hne d (hpre.subset hd)
    rcases call_cases ops self c with ⟨h, _⟩ | ⟨d, _, h, hT, _⟩
    · rw [h]; exact hnd
    · rw [h] at hne1 ⊢
      have hne0 : ∀ x ∈ self.mTypes, x.Name ≠ "" :=
        fun x hx => hne1 x (List.mem_append_left _ hx)
      have hfresh := not_mem_of_TypeName_empty hne0 hT
      rw [List.map_append, List.nodup_append]
      refine ⟨hnd, List.nodup_singleton _, ?_⟩
      intro a ha hb
      rw [List.map_singleton, List.mem_singleton] at hb
      obtain ⟨x, hx, rfl⟩ := List.mem_map.mp ha
      exact hfresh x hx hb

theorem filter_length_le_one (l : List ITypeBase) (T : type_index)
    (h : (l.map ITypeBase.TypeIndex).Nodup) :
    (l.filter (fun d => d.TypeIndex = T)).length ≤ 1 := by
  induction l with
  | nil => simp
  | cons a rest ih =>
    rw [List.map_cons, List.nodup_cons] at h
    by_cases ha : a.TypeIndex = T
    · have hnone : rest.filter (fun d => decide (d.TypeIndex = T)) = [] := by
        rw [List.filter_eq_nil_iff]
        intro x hx hxT
        apply h.1
        rw [ha]
        exact List.mem_map.mpr ⟨x, hx, by simpa using hxT⟩
      simp [List.filter, ha, hnone]
    · simpa [List.filter, ha] using ih h.2

/-- C15: in every registry state reached from the empty registry by a sequence
of calls after which every registered name is non-empty, no two descriptors
have the same native type index; so for every native type the lookups that
return the first match have at most one descriptor to choose from. -/
theorem C15_native_types_unique {J : Type} (ops : TypeOps J) (calls : List Call)
    (hne : ∀ d ∈ (run ops empty calls).mTypes, d.Name ≠ "") :
    ((run ops empty calls).mTypes.map ITypeBase.TypeIndex).Nodup ∧
      ∀ T, ((run ops empty calls).mTypes.filter (fun d => d.TypeIndex = T)).length ≤ 1 := by
  have h := nodup_run ops calls empty List.nodup_nil hne
  exact ⟨h, fun T => filter_length_le_one _ T h⟩

/-- A run of C15: four registrations, two of them refused, leave one descriptor
per native type. -/
theorem C15_native_types_unique_witness :
    ((run sampleOps empty [.AddEnum 4 "Scale" [⟨0, "Full"⟩], .AddBasicType 1 "u16" 0 65535,
      .AddBasicType 1 "word" 0 9, .AddEnum 4 "Size" []]).mTypes.map ITypeBase.TypeIndex).Nodup ∧
      ∀ T, ((run sampleOps empty [.AddEnum 4 "Scale" [⟨0, "Full"⟩],
        .AddBasicType 1 "u16" 0 65535, .AddBasicType 1 "word" 0 9,
        .AddEnum 4 "Size" []]).mTypes.filter (fun d => d.TypeIndex = T)).length ≤ 1 :=
  C15_native_types_unique sampleOps [.AddEnum 4 "Scale" [⟨0, "Full"⟩],
    .AddBasicType 1 "u16" 0 65535, .AddBasicType 1 "word" 0 9, .AddEnum 4 "Size" []]
    (by
      have h : run sampleOps empty [.AddEnum 4 "Scale" [⟨0, "Full"⟩],
          .AddBasicType 1 "u16" 0 65535, .AddBasicType 1 "word" 0 9, .AddEnum 4 "Size" []] =
          ⟨[ITypeBase.EnumType "Scale" 4 [(0, "Full")], ITypeBase.BasicType "u16" 1 0 65535]⟩ :=
        rfl
      rw [h]
      decide)

/-- An `AddEnum` call that returns has run `Add` through every pair and has
appended the enum holding the resulting mapping. -/
theorem AddEnumItems_ok_of_AddEnum {J : Type} (ops : TypeOps J) (self : TypesCollectionBase)
    (T : type_index) (enumName : String) (enumItems : List EnumPair) (p : Option ITypeBase)
    (h : (AddEnum ops self T enumName enumItems).1 = .ok p) :
    ∃ m, AddEnumItems ops [] enumItems = .ok m ∧ p = some (ITypeBase.EnumType enumName T m) ∧
      (AddEnum ops self T enumName enumItems).2 =
        ⟨self.mTypes ++ [ITypeBase.EnumType enumName T m]⟩ := by
  unfold AddEnum at h ⊢
  by_cases hT : self.TypeName T = ""
  · simp only [hT, not_true_eq_false, if_false] at h ⊢
    cases hitems : AddEnumItems ops [] enumItems with
    | error ex => rw [hitems] at h; simp at h
    | ok m =>
      rw [hitems] at h
      refine ⟨m, rfl, ?_, rfl⟩
      simpa using h.symm
  · simp [hT] at h

/-- C16: an `AddEnum` call that throws, with `DuplicateEnumNameException` or
with what `Add` threw for one of the pairs, leaves the registry exactly as it
was; and a call that returns has appended one enum whose mapping went through
`Add` for every pair. No partially populated enum is registered. -/
theorem C16_AddEnum_atomic {J : Type} (ops : TypeOps J) (self : TypesCollectionBase)
    (T : type_index) (enumName : String) (enumItems : List EnumPair) :
    (∀ ex, (AddEnum ops self T enumName enumItems).1 = .error ex →
        (AddEnum ops self T enumName enumItems).2 = self) ∧
      (∀ p, (AddEnum ops self T enumName enumItems).1 = .ok p →
        ∃ m, AddEnumItems ops [] enumItems = .ok m ∧
          p = some (ITypeBase.EnumType enumName T m) ∧
          (AddEnum ops self T enumName enumItems).2 =
            ⟨self.mTypes ++ [ITypeBase.EnumType enumName T m]⟩) := by
  refine ⟨?_, fun p h => AddEnumItems_ok_of_AddEnum ops self T enumName enumItems p h⟩
  intro ex h
  unfold AddEnum at h ⊢
  by_cases hT : self.TypeName T = ""
  · simp only [hT, not_true_eq_false, if_false] at h ⊢
    cases hitems : AddEnumItems ops [] enumItems with
    | error e => rfl
    | ok m => rw [hitems] at h; simp at h
  · simp [hT]

/-- A run of C16: the second pair repeats the value of the first, `Add` throws,
and the registry still holds only what it held. -/
theorem C16_AddEnum_atomic_witness :
    (AddEnum sampleOps ⟨[ITypeBase.BasicType "u16" 1 0 65535]⟩ 4 "Scale"
        [⟨0, "Full"⟩, ⟨0, "Half"⟩]).2 = ⟨[ITypeBase.BasicType "u16" 1 0 65535]⟩ :=
  (C16_AddEnum_atomic sampleOps ⟨[ITypeBase.BasicType "u16" 1 0 65535]⟩ 4 "Scale"
    [⟨0, "Full"⟩, ⟨0, "Half"⟩]).1 (.Other "duplicate enum item") rfl

end TypesCollectionBase

end ReliveAPI

/-! The variant factory: construction and registration -/

namespace ReliveAPI

namespace TlvFactory

theorem fnCreate_of_ctor {R F : Type} (W : TlvWrapperType R F) (types : TypesCollectionBase)
    (r : Option R) (i : Int) (fields : F) (t1 : TypesCollectionBase)
    (h : W.ctor types r = (.ok fields, t1)) :
    fnCreate W types r i = (.ok (some ⟨W.Name, W.TlvType, fields, i⟩), t1) := by
  simp [fnCreate, h, TlvObjectBase.SetInstanceNumber]

theorem fnCreate_ne_null {R F : Type} (W : TlvWrapperType R F) (types : TypesCollectionBase)
    (r : Option R) (i : Int) : (fnCreate W types r i).1 ≠ .ok none := by
  unfold fnCreate
  rcases W.ctor types r with ⟨res, t1⟩
  cases res <;> simp

/-- C13: in a factory built by `DoRegisterType` calls, every registered tag `T`
has a kind `W` reporting `T`, and for every registry, record and instance count
`MakeTlvByEnum(T, r, i)` never returns `nullptr`: when the constructor of `W`
returns, the result is the wrapper of kind `W` it built from `r`, whose
instance number is exactly `i`. Likewise every registered name `N` has a kind
reporting `N`, and `MakeTlvByName(N, r)` returns the wrapper of that kind built
from `r`, whose instance number is 0. -/
theorem C13_construct_registered {R F : Type} {Ws : List (TlvWrapperType R F)}
    {f : TlvFactory R F} (hb : Built Ws f) :
    (∀ T ∈ std.map.keys f.mTlvFactory, ∃ W ∈ Ws, W.TlvType = T ∧
        ∀ (types : TypesCollectionBase) (r : Option R) (i : Int),
          (MakeTlvByEnum f types T r i).result ≠ .ok none ∧
          ∀ fields t1, W.ctor types r = (.ok fields, t1) →
            MakeTlvByEnum f types T r i = ⟨.ok (some ⟨W.Name, T, fields, i⟩), t1, f⟩) ∧
      (∀ N ∈ std.map.keys f.mReverseTlvFactory, ∃ W ∈ Ws, W.Name = N ∧
        ∀ (types : TypesCollectionBase) (r : Option R),
          (MakeTlvByName f types N r).result ≠ .ok none ∧
          ∀ fields t1, W.ctor types r = (.ok fields, t1) →
            MakeTlvByName f types N r = ⟨.ok (some ⟨N, W.TlvType, fields, 0⟩), t1, f⟩) := by
  obtain ⟨h1, h2, _, _⟩ := Built_find hb
  constructor
  · intro T hT
    obtain ⟨X, hX, hXT⟩ := (mem_keys_tag hb T).mp hT
    cases hk : kindOfTag T Ws with
    | none =>
      have := List.find?_eq_none.mp hk X hX
      simp [hXT] at this
    | some W =>
      have hW : W ∈ Ws := List.mem_of_find?_eq_some hk
      have hWT : W.TlvType = T := by simpa using List.find?_some hk
      refine ⟨W, hW, hWT, ?_⟩
      intro types r i
      have e : MakeTlvByEnum f types T r i =
          ⟨(fnCreate W types r i).1, (fnCreate W types r i).2, f⟩ := by
        simp [MakeTlvByEnum, h1 T, hk]
      refine ⟨?_, ?_⟩
      · rw [e]; exact fnCreate_ne_null W types r i
      · intro fields t1 hc
        rw [e, fnCreate_of_ctor W types r i fields t1 hc, hWT]
  · intro N hN
    obtain ⟨X, hX, hXN⟩ := (mem_keys_name hb N).mp hN
    cases hk : kindOfName N Ws with
    | none =>
      have := List.find?_eq_none.mp hk X hX
      simp [hXN] at this
    | some W =>
      have hW : W ∈ Ws := List.mem_of_find?_eq_some hk
      have hWN : W.Name = N := by simpa using List.find?_some hk
      refine ⟨W, hW, hWN, ?_⟩
      intro types r
      have e : MakeTlvByName f types N r =
          ⟨(fnCreate W types r 0).1, (fnCreate W types r 0).2, f⟩ := by
        simp [MakeTlvByName, h2 N, hk]
      refine ⟨?_, ?_⟩
      · rw [e]; exact fnCreate_ne_null W types r 0
      · intro fields t1 hc
        rw [e, fnCreate_of_ctor W types r 0 fields t1 hc, hWN]

/-- A run of C13 on the factory holding the kinds ("A", 1) and ("B", 2): tag 2
is registered and has a kind reporting it. -/
theorem C13_construct_registered_witness :
    ∃ W ∈ [sampleKind "B" 2 20, sampleKind "A" 1 10], W.TlvType = 2 ∧
      ∀ (types : TypesCollectionBase) (r : Option Unit) (i : Int),
        (MakeTlvByEnum (DoRegisterType (DoRegisterType empty (sampleKind "A" 1 10) ⟨[]⟩).self
            (sampleKind "B" 2 20) ⟨[]⟩).self types 2 r i).result ≠ .ok none ∧
        ∀ fields t1, W.ctor types r = (.ok fields, t1) →
          MakeTlvByEnum (DoRegisterType (DoRegisterType empty (sampleKind "A" 1 10) ⟨[]⟩).self
            (sampleKind "B" 2 20) ⟨[]⟩).self types 2 r i =
            ⟨.ok (some ⟨W.Name, 2, fields, i⟩), t1,
              (DoRegisterType (DoRegisterType empty (sampleKind "A" 1 10) ⟨[]⟩).self
                (sampleKind "B" 2 20) ⟨[]⟩).self⟩ :=
  (C13_construct_registered
    (Built.registered (sampleKind "B" 2 20) ⟨[]⟩
      (Built.registered (sampleKind "A" 1 10) ⟨[]⟩ Built.empty rfl) rfl)).1 2 (by decide)

/-- A run of the two constructions on that factory, with a record and the
count 7 for the instance. -/
theorem MakeTlv_example :
    MakeTlvByEnum (DoRegisterType (DoRegisterType empty (sampleKind "A" 1 10) ⟨[]⟩).self
        (sampleKind "B" 2 20) ⟨[]⟩).self ⟨[]⟩ 2 (some ()) 7 =
      ⟨.ok (some ⟨"B", 2, 20, 7⟩), ⟨[]⟩,
        (DoRegisterType (DoRegisterType empty (sampleKind "A" 1 10) ⟨[]⟩).self
          (sampleKind "B" 2 20) ⟨[]⟩).self⟩ ∧
      (MakeTlvByName (DoRegisterType empty (sampleKind "A" 1 10) ⟨[]⟩).self ⟨[]⟩ "A"
        (some ())).result = .ok (some ⟨"A", 1, 10, 0⟩) :=
  ⟨rfl, rfl⟩

/-- C17: a `DoRegisterType` call whose field-type registration throws leaves
both maps of the factory as they were; a call that returns has bound the tag
and the name of the kind to the same constructor, the `fnCreate` of the kind,
and every other key of either map finds what it found before. The call fails
exactly when `AddTypes` does. -/
theorem C17_DoRegisterType_atomic {R F : Type} (self : TlvFactory R F)
    (W : TlvWrapperType R F) (constructingTypes : TypesCollectionBase) :
    (DoRegisterType self W constructingTypes).result = (W.AddTypes constructingTypes).1 ∧
      (∀ ex, (DoRegisterType self W constructingTypes).result = .error ex →
        (DoRegisterType self W constructingTypes).self = self) ∧
      ((DoRegisterType self W constructingTypes).result = .ok () →
        std.map.find (DoRegisterType self W constructingTypes).self.mTlvFactory W.TlvType =
            some (fnCreate W) ∧
          std.map.find (DoRegisterType self W constructingTypes).self.mReverseTlvFactory W.Name =
            some (fnCreate W) ∧
          (∀ T, T ≠ W.TlvType →
            std.map.find (DoRegisterType self W constructingTypes).self.mTlvFactory T =
              std.map.find self.mTlvFactory T) ∧
          (∀ N, N ≠ W.Name →
            std.map.find (DoRegisterType self W constructingTypes).self.mReverseTlvFactory N =
              std.map.find self.mReverseTlvFactory N)) := by
  refine ⟨?_, fun ex h => DoRegisterType_error self W constructingTypes ex h, ?_⟩
  · unfold DoRegisterType
    rcases W.AddTypes constructingTypes with ⟨res, t1⟩
    cases res <;> rfl
  · intro hok
    rw [DoRegisterType_ok self W constructingTypes hok]
    refine ⟨?_, ?_, ?_, ?_⟩
    · simp [std.map.find_assign]
    · simp [std.map.find_assign]
    · intro T hT
      simp [std.map.find_assign, Ne.symm hT]
    · intro N hN
      simp [std.map.find_assign, Ne.symm hN]

end TlvFactory

end ReliveAPI

namespace ReliveAPI

namespace TlvFactory

/-- A run of C17: the second kind registers an enum for a native type that
already has one, `AddTypes` throws `DuplicateEnumNameException`, and both maps
still hold the first kind only. -/
theorem C17_DoRegisterType_atomic_witness :
    (DoRegisterType (DoRegisterType empty (enumKind "A" 1 4 "Scale") ⟨[]⟩).self
        (enumKind "B" 2 4 "Size")
        (DoRegisterType empty (enumKind "A" 1 4 "Scale") ⟨[]⟩).typesCollection).self =
      (DoRegisterType empty (enumKind "A" 1 4 "Scale") ⟨[]⟩).self :=
  (C17_DoRegisterType_atomic (DoRegisterType empty (enumKind "A" 1 4 "Scale") ⟨[]⟩).self
    (enumKind "B" 2 4 "Size")
    (DoRegisterType empty (enumKind "A" 1 4 "Scale") ⟨[]⟩).typesCollection).2.1
    (.DuplicateEnumNameException "Size") rfl

end TlvFactory

end ReliveAPI

/-! The raw TLV records -/

namespace AO

/-- C14: with the TLV header taking 0x18 bytes and the declared members, all
`__int16`, following one another without padding, `Path_Slig` takes 0x58 bytes
and `Path_Scrab` 0x2C bytes, the sizes the source asserts, and every member
`field_XX_...` of either record lies at byte offset 0xXX. -/
theorem C14_record_layout :
    (∀ m ∈ Path_Slig ++ Path_Scrab, m.type = "__int16" ∧ sizeOfType m.type = 2) ∧
      sizeOfStruct 0x18 Path_Slig = 0x58 ∧
      sizeOfStruct 0x18 Path_Slig = Path_Slig_asserted_size ∧
      sizeOfStruct 0x18 Path_Scrab = 0x2C ∧
      sizeOfStruct 0x18 Path_Scrab = Path_Scrab_asserted_size ∧
      (∀ p ∈ layout 0x18 Path_Slig, namedOffset p.1 = some p.2) ∧
      (∀ p ∈ layout 0x18 Path_Scrab, namedOffset p.1 = some p.2) := by
  refine ⟨by decide, by decide, by decide, by decide, by decide, ?_, ?_⟩
  · decide
  · decide

end AO

/-! The blast rectangle -/

namespace AO

theorem toShort_of_InShort (v : Int) (h : InShort v) : toShort v = v := by
  unfold InShort at h
  unfold toShort
  omega

/-- C18: when the object list exists and no 16-bit overflow occurs, the
rectangle `DealBlastDamage_459160` tests against is well ordered and contains
the corner-normalised input rectangle moved by the integer position of the
explosion; its left edge is `min(x,w)+xpos`, less 656 exactly when that value
`% 1024` is below 256; its right edge is `max(x,w)+xpos`, plus 656 exactly when
that value `% 1024` is above 624; its top edge is `min(y,h)+ypos`, less 240
exactly when that value `% 480` is below 120; and its bottom edge is
`max(y,h)+ypos`, plus 240 exactly when that value `% 480` is above 360. -/
theorem C18_blast_rectangle (xpos ypos : Int) (pRect : PSX_RECT)
    (hov : NoOverflow xpos ypos pRect) :
    ∃ e, DealBlastDamage_459160 true xpos ypos pRect = some e ∧
      e.x ≤ e.w ∧ e.y ≤ e.h ∧
      e.x ≤ min pRect.x pRect.w + xpos ∧ max pRect.x pRect.w + xpos ≤ e.w ∧
      e.y ≤ min pRect.y pRect.h + ypos ∧ max pRect.y pRect.h + ypos ≤ e.h ∧
      e.x = (if Int.tmod (min pRect.x pRect.w + xpos) 1024 < 256
        then min pRect.x pRect.w + xpos - 656 else min pRect.x pRect.w + xpos) ∧
      e.w = (if Int.tmod (max pRect.x pRect.w + xpos) 1024 > 624
        then max pRect.x pRect.w + xpos + 656 else max pRect.x pRect.w + xpos) ∧
      e.y = (if Int.tmod (min pRect.y pRect.h + ypos) 480 < 120
        then min pRect.y pRect.h + ypos - 240 else min pRect.y pRect.h + ypos) ∧
      e.h = (if Int.tmod (max pRect.y pRect.h + ypos) 480 > 360
        then max pRect.y pRect.h + ypos + 240 else max pRect.y pRect.h + ypos) := by
  obtain ⟨h1, h2, h3, h4, h5, h6, h7, h8⟩ := hov
  have hx : min pRect.x pRect.w ≤ max pRect.x pRect.w := le_trans (min_le_left _ _) (le_max_left _ _)
  have hy : min pRect.y pRect.h ≤ max pRect.y pRect.h := le_trans (min_le_left _ _) (le_max_left _ _)
  have ex : (if Int.tmod (toShort (min pRect.x pRect.w + xpos)) 1024 < 256
        then toShort (toShort (min pRect.x pRect.w + xpos) - 656)
        else toShort (min pRect.x pRect.w + xpos)) =
      (if Int.tmod (min pRect.x pRect.w + xpos) 1024 < 256
        then min pRect.x pRect.w + xpos - 656 else min pRect.x pRect.w + xpos) := by
    rw [toShort_of_InShort _ h1]
    split_ifs with hc
    · exact toShort_of_InShort _ (h5 hc)
    · rfl
  have ew : (if Int.tmod (toShort (max pRect.x pRect.w + xpos)) 1024 > 624
        then toShort (toShort (max pRect.x pRect.w + xpos) + 656)
        else toShort (max pRect.x pRect.w + xpos)) =
      (if Int.tmod (max pRect.x pRect.w + xpos) 1024 > 624
        then max pRect.x pRect.w + xpos + 656 else max pRect.x pRect.w + xpos) := by
    rw [toShort_of_InShort _ h2]
    split_ifs with hc
    · exact toShort_of_InShort _ (h6 hc)
    · rfl
  have ey : (if Int.tmod (toShort (min pRect.y pRect.h + ypos)) 480 < 120
        then toShort (toShort (min pRect.y pRect.h + ypos) - 240)
        else toShort (min pRect.y pRect.h + ypos)) =
      (if Int.tmod (min pRect.y pRect.h + ypos) 480 < 120
        then min pRect.y pRect.h + ypos - 240 else min pRect.y pRect.h + ypos) := by
    rw [toShort_of_InShort _ h3]
    split_ifs with hc
    · exact toShort_of_InShort _ (h7 hc)
    · rfl
  have eh : (if Int.tmod (toShort (max pRect.y pRect.h + ypos)) 480 > 360
        then toShort (toShort (max pRect.y pRect.h + ypos) + 240)
        else toShort (max pRect.y pRect.h + ypos)) =
      (if Int.tmod (max pRect.y pRect.h + ypos) 480 > 360
        then max pRect.y pRect.h + ypos + 240 else max pRect.y pRect.h + ypos) := by
    rw [toShort_of_InShort _ h4]
    split_ifs with hc
    · exact toShort_of_InShort _ (h8 hc)
    · rfl
  refine ⟨_, rfl, ?_⟩
  simp only [Bool.not_true, Bool.false_eq_true, if_false, ex, ew, ey, eh]
  refine ⟨?_, ?_, ?_, ?_, ?_, ?_, ?_⟩
  · split_ifs <;> omega
  · split_ifs <;> omega
  · split_ifs <;> omega
  · split_ifs <;> omega
  · split_ifs <;> omega
  · split_ifs <;> omega
  · simp

/-- A run of C18: the blast rectangle (-10, -10, 10, 10) of an explosion at
(1100, 300). The left edge 1090 leaves 66 modulo 1024 and is pushed out by
656; the other three edges stay. -/
theorem C18_blast_rectangle_witness :
    ∃ e, DealBlastDamage_459160 true 1100 300 ⟨-10, -10, 10, 10⟩ = some e ∧
      e.x ≤ e.w ∧ e.y ≤ e.h ∧
      e.x ≤ min (-10) 10 + 1100 ∧ max (-10) 10 + 1100 ≤ e.w ∧
      e.y ≤ min (-10) 10 + 300 ∧ max (-10) 10 + 300 ≤ e.h ∧
      e.x = (if Int.tmod (min (-10) 10 + 1100) 1024 < 256
        then min (-10) 10 + 1100 - 656 else min (-10) 10 + 1100) ∧
      e.w = (if Int.tmod (max (-10) 10 + 1100) 1024 > 624
        then max (-10) 10 + 1100 + 656 else max (-10) 10 + 1100) ∧
      e.y = (if Int.tmod (min (-10) 10 + 300) 480 < 120
        then min (-10) 10 + 300 - 240 else min (-10) 10 + 300) ∧
      e.h = (if Int.tmod (max (-10) 10 + 300) 480 > 360
        then max (-10) 10 + 300 + 240 else max (-10) 10 + 300) :=
  C18_blast_rectangle 1100 300 ⟨-10, -10, 10, 10⟩ (by decide)

/-- Runs of the rectangle computation: the one above, one with a negative left
edge, whose truncated remainder is negative and so below 256, and one without
an object list. -/
theorem DealBlastDamage_example :
    DealBlastDamage_459160 true 1100 300 ⟨-10, -10, 10, 10⟩ = some ⟨434, 290, 1110, 310⟩ ∧
      DealBlastDamage_459160 true (-700) 200 ⟨-60, -60, 60, 30⟩ =
        some ⟨-1416, 140, -640, 230⟩ ∧
      DealBlastDamage_459160 false 1100 300 ⟨-10, -10, 10, 10⟩ = none := by
  decide

end AO
